import Mathlib

/-!
# Verification of the Team Orchestration & Kanban Board Engine

A shallow embedding, in Lean 4, of the event-driven orchestration core of
the Kanban Society repository:

* the team event types (`internal/team/events.go`),
* the bounded non-blocking event channel (`internal/team/team.go`,
  `internal/team/modes.go`),
* the checkpoint approval gate (`internal/team/checkpoint.go`),
* the PM selector (`internal/team/pm.go`),
* the five mode executors (`internal/team/modes.go`),
* the phase-driving `Runner.Run` (`internal/team/team.go`), and
* the Kanban board engine (the TUI package's `card.go` / `kanban.go`).

Go maps are modelled as association lists with insert-at-front shadowing
(lookup returns the most recent binding, matching Go map overwrite).
Go `time.Time` values are not modelled (no theorem here depends on them).
External model invocations (`registry.Invoke` / `registry.Stream`) are
modelled as oracle inputs supplying each call's outcome; everything else is
translated from the source control flow.
-/

namespace KanbanSociety

/-! ## Events (`internal/team/events.go`) -/

/-- `EventType` from `events.go` (a Go `iota` enum). -/
inductive EventType where
  | phaseChanged
  | pmSelected
  | pmDecision
  | taskCreated
  | taskStarted
  | taskProgress
  | taskCompleted
  | taskMovedToReview
  | pmApproved
  | userTaskCreated
  | userTaskBlocking
  | userTaskCompleted
  | error
  | sessionComplete
  deriving DecidableEq, Repr

/-- Go's `Phase` is an `int` (`Phase int` with `iota` constants); the first
`PhaseChanged` event is emitted with `OldPhase: -1`, so phases in event
payloads are modelled as `Int`. -/
abbrev GoPhase := Int

def phaseAnalysis : GoPhase := 0
def phasePlanning : GoPhase := 1
def phaseExecution : GoPhase := 2
def phaseReview : GoPhase := 3
def phaseDelivery : GoPhase := 4
def phaseComplete : GoPhase := 5

/-- `TaskCreatedData` from `events.go`. -/
structure TaskCreatedData where
  title : String
  description : String
  assignedTo : String
  isBlocking : Bool
  dependsOn : List String
  deriving Repr

/-- The `interface{}`-typed `Data` field of an event, as a closed sum of the
payload structs defined in `events.go`.  A payload that does not match the
type assertion performed by a consumer corresponds to any other variant. -/
inductive EvData where
  | phaseChangedD (oldPhase newPhase : GoPhase)
  | pmSelectedD (pmID displayName : String)
  | pmDecisionD (workMode planSummary : String) (taskCount : Nat)
  | taskCreatedD (d : TaskCreatedData)
  | taskProgressD (content : String) (progress : Float)
  | errorD (err : String) (taskID : String) (message : String)
  | userTaskCompletedD (notes : String)
  | noneD
  deriving Repr

/-- `Event` from `events.go` (the `Timestamp` field is not modelled). -/
structure Event where
  type : EventType
  taskID : String
  actor : String
  data : EvData
  deriving Repr

/-- `EventType.String` (`events.go` 26–59). -/
def EventType.string : EventType → String
  | .phaseChanged => "PhaseChanged"
  | .pmSelected => "PMSelected"
  | .pmDecision => "PMDecision"
  | .taskCreated => "TaskCreated"
  | .taskStarted => "TaskStarted"
  | .taskProgress => "TaskProgress"
  | .taskCompleted => "TaskCompleted"
  | .taskMovedToReview => "TaskMovedToReview"
  | .pmApproved => "PMApproved"
  | .userTaskCreated => "UserTaskCreated"
  | .userTaskBlocking => "UserTaskBlocking"
  | .userTaskCompleted => "UserTaskCompleted"
  | .error => "Error"
  | .sessionComplete => "SessionComplete"

/-- `Phase.String` (`team.go` 61–78), on the `int`-valued phase. -/
def goPhaseString (p : GoPhase) : String :=
  if p = phaseAnalysis then "Task Analysis"
  else if p = phasePlanning then "Planning"
  else if p = phaseExecution then "Execution"
  else if p = phaseReview then "Review"
  else if p = phaseDelivery then "Delivery"
  else if p = phaseComplete then "Complete"
  else "Unknown"

/-- `NewEvent` (`events.go`): no task ID. -/
def NewEvent (t : EventType) (actor : String) (data : EvData) : Event :=
  { type := t, taskID := "", actor := actor, data := data }

/-- `NewTaskEvent` (`events.go`). -/
def NewTaskEvent (t : EventType) (taskID actor : String) (data : EvData) : Event :=
  { type := t, taskID := taskID, actor := actor, data := data }

/-! ## The bounded event channel (`team.go` lines 120–135, `modes.go` 21–29)

`NewRunner` creates `Events: make(chan Event, 100)`.  `emit` sends with a
`select`/`default`: the send succeeds when the buffer has free space and is
otherwise skipped.  The buffered channel is modelled as the queue of not yet
consumed events. -/

/-- Capacity of the runner's event channel (`make(chan Event, 100)`). -/
def runnerChanCapacity : Nat := 100

/-- `Runner.emit` (`team.go` 128–135): non-blocking send on the bounded
channel; on a full buffer the event is dropped and the state is unchanged. -/
def runnerEmit (buf : List Event) (e : Event) : List Event :=
  if buf.length < runnerChanCapacity then buf ++ [e] else buf

/-- `ModeExecutor.emit` (`modes.go` 21–29): same non-blocking send, guarded
by a nil check on the channel (`nil` modelled as `none`). -/
def executorEmit (ch : Option (List Event)) (e : Event) : Option (List Event) :=
  match ch with
  | none => none
  | some buf => some (runnerEmit buf e)

/-! ## Kanban board engine (TUI package: `Column`, `KanbanCard`, `KanbanModel`)

`KanbanModel` keeps `cards map[string]*KanbanCard` and
`columns map[Column][]*KanbanCard`.  Cards are identified by their `ID`
(`moveCard` removes by `c.ID != card.ID`), so column membership is modelled
as lists of card IDs and the card map as an association list keyed by ID;
this has the same by-ID observable behaviour as the pointer lists.  Fields
only used for rendering layout are kept where the event handler writes
them; `time.Time` fields are omitted. -/

/-- `Column` (card.go): Backlog, In Progress, Review, Done. -/
inductive Col where
  | backlog
  | inProgress
  | review
  | done
  deriving DecidableEq, Repr

/-- Position of a column in the board order Backlog < InProgress < Review <
Done (used only to state the "never moves backward" claim). -/
def colRank : Col → Nat
  | .backlog => 0
  | .inProgress => 1
  | .review => 2
  | .done => 3

/-- `KanbanCard` (card.go); `StreamBuf`/`FullHistory` are
`strings.Builder`s, modelled by their accumulated string; `Error error` is
modelled as the error's message when set. -/
structure KCard where
  id : String
  title : String
  description : String
  assignedTo : String
  column : Col
  isBlocking : Bool
  isUserTask : Bool
  streamBuf : String
  fullHistory : String
  progress : Float
  dependsOn : List String
  blockedBy : List String
  done : Bool
  error : Option String
  deriving Repr

/-- `NewKanbanCard` (card.go): zero values for the fields the constructor
does not set. -/
def NewKanbanCard (id title assignedTo : String) : KCard :=
  { id := id
    title := title
    description := ""
    assignedTo := assignedTo
    column := .backlog
    isBlocking := false
    isUserTask := assignedTo == "user"
    streamBuf := ""
    fullHistory := ""
    progress := 0.0
    dependsOn := []
    blockedBy := []
    done := false
    error := none }

/-- `KanbanCard.IsBlocked` (card.go 64–67): `len(c.BlockedBy) > 0`. -/
def KCard.IsBlocked (c : KCard) : Bool :=
  c.blockedBy.length > 0

/-- `DebugLogEntry` (kanban.go) without its timestamp. -/
structure DebugLogEntry where
  type : String
  actor : String
  message : String
  deriving Repr

/-- `truncateString` (card.go 170–178). -/
def truncateString (s : String) (maxLen : Nat) : String :=
  if s.length ≤ maxLen then s
  else if maxLen ≤ 3 then s.take maxLen
  else s.take (maxLen - 3) ++ "..."

/-- The state fields of `KanbanModel` (kanban.go) mutated by
`handleTeamEventCopy`.  UI-only fields (spinner, sizes, scroll offsets,
popup/help flags) are omitted: the handler does not touch them. -/
structure KModel where
  pm : String
  pmPhase : GoPhase
  workMode : String
  planSummary : String
  cards : List (String × KCard)
  columns : Col → List String
  activeCardID : String
  activityStatus : String
  debugLog : List DebugLogEntry
  complete : Bool

/-- Map lookup on the card map (`m.cards[id]`). -/
def KModel.lookupCard (m : KModel) (id : String) : Option KCard :=
  (m.cards.find? (fun p => p.1 == id)).map Prod.snd

/-- Map overwrite on the card map (`m.cards[id] = card`); insert-at-front
with `lookupCard` returning the most recent binding. -/
def KModel.insertCard (m : KModel) (id : String) (c : KCard) : KModel :=
  { m with cards := (id, c) :: m.cards }

/-- Pointwise update of one column list. -/
def updCol (cols : Col → List String) (c : Col) (l : List String) :
    Col → List String :=
  fun c' => if c' = c then l else cols c'

/-- `NewKanbanModel` (kanban.go 78–103): all four columns pre-initialized
to empty slices, empty card map. -/
def NewKanbanModel : KModel :=
  { pm := ""
    pmPhase := 0
    workMode := ""
    planSummary := ""
    cards := []
    columns := fun _ => []
    activeCardID := ""
    activityStatus := "Initializing..."
    debugLog := []
    complete := false }

/-- `addDebugLog` (kanban.go 106–119): append, keep the last 100 entries. -/
def KModel.addDebugLog (m : KModel) (type actor message : String) : KModel :=
  let log := m.debugLog ++ [⟨type, actor, message⟩]
  { m with debugLog := if log.length > 100 then log.drop (log.length - 100) else log }

/-- `moveCard` (kanban.go 415–436): remove every entry with the card's ID
from the card's current column, retarget the card's `Column` field, append
the card to the destination column.  The caller passes the card value it
looked up (Go passes the `*KanbanCard`), so the card map is rewritten with
the retargeted card. -/
def KModel.moveCard (m : KModel) (card : KCard) (toColumn : Col) : KModel :=
  let cols1 := updCol m.columns card.column
    ((m.columns card.column).filter (fun cid => cid ≠ card.id))
  let cols2 := updCol cols1 toColumn (cols1 toColumn ++ [card.id])
  { m.insertCard card.id { card with column := toColumn } with columns := cols2 }

/-- `handleTeamEventCopy` (kanban.go 299–413), case by case; the
`if data, ok := event.Data.(T)` type assertions become matches on the
`EvData` variant, with a silent no-op on mismatch exactly as in the
source. -/
def handleTeamEvent (m0 : KModel) (event : Event) : KModel :=
  let m := m0.addDebugLog "event" event.actor
    ("[" ++ event.type.string ++ "] " ++ event.taskID)
  match event.type with
  | .phaseChanged =>
    match event.data with
    | .phaseChangedD oldPhase newPhase =>
      let m := { m with pmPhase := newPhase,
                        activityStatus := "Phase: " ++ goPhaseString newPhase }
      m.addDebugLog "phase" "system"
        ("Phase changed: " ++ goPhaseString oldPhase ++ " → " ++ goPhaseString newPhase)
    | _ => m
  | .pmSelected =>
    match event.data with
    | .pmSelectedD pmID _ =>
      let m := { m with pm := pmID, activityStatus := "PM selected: " ++ pmID }
      m.addDebugLog "pm" pmID "Selected as Project Manager"
    | _ => m
  | .pmDecision =>
    let m := { m with pm := event.actor }
    match event.data with
    | .pmDecisionD workMode planSummary n =>
      let m := { m with workMode := workMode, planSummary := planSummary,
                        activityStatus := "Planning: " ++ workMode ++ " mode" }
      m.addDebugLog "decision" event.actor
        ("Work mode: " ++ workMode ++ ", Tasks: " ++ toString n)
    | _ => m
  | .taskCreated =>
    match event.data with
    | .taskCreatedD d =>
      let card := { NewKanbanCard event.taskID d.title d.assignedTo with
                      description := d.description
                      dependsOn := d.dependsOn
                      isBlocking := d.isBlocking
                      isUserTask := d.assignedTo == "user" }
      let m := m.insertCard event.taskID card
      let m := { m with columns := updCol m.columns .backlog (m.columns .backlog ++ [event.taskID]),
                        activityStatus := "Task created: " ++ truncateString d.title 30 }
      m.addDebugLog "task" d.assignedTo ("Created: " ++ d.title)
    | _ => m
  | .taskStarted =>
    match m.lookupCard event.taskID with
    | some card =>
      let m := m.moveCard card .inProgress
      let m := { m with activeCardID := card.id,
                        activityStatus := event.actor ++ " working on: " ++ truncateString card.title 20 }
      m.addDebugLog "cmd" event.actor ("Started: " ++ card.title)
    | none => m
  | .taskProgress =>
    let m :=
      match m.lookupCard event.taskID with
      | some card =>
        match event.data with
        | .taskProgressD content progress =>
          let m := m.insertCard event.taskID
            { card with streamBuf := card.streamBuf ++ content,
                        fullHistory := card.fullHistory ++ content,
                        progress := progress }
          if content.length > 50 then
            m.addDebugLog "response" event.actor (truncateString content 80)
          else m
        | _ => m
      | none => m
    { m with activityStatus := event.actor ++ " responding..." }
  | .taskCompleted =>
    match m.lookupCard event.taskID with
    | some card =>
      let m := m.moveCard { card with done := true } .review
      let m := { m with activityStatus := event.actor ++ " completed: " ++ truncateString card.title 20 }
      m.addDebugLog "task" event.actor ("Completed: " ++ card.title)
    | none => m
  | .taskMovedToReview =>
    match m.lookupCard event.taskID with
    | some card =>
      let m := m.moveCard card .review
      let m := { m with activityStatus := "Review: " ++ truncateString card.title 25 }
      m.addDebugLog "review" "pm" ("Moved to review: " ++ card.title)
    | none => m
  | .pmApproved =>
    match m.lookupCard event.taskID with
    | some card =>
      let m := m.moveCard card .done
      let m := { m with activityStatus := "Approved: " ++ truncateString card.title 25 }
      m.addDebugLog "approved" "pm" ("Approved: " ++ card.title)
    | none => m
  | .userTaskCreated =>
    match event.data with
    | .taskCreatedD d =>
      let card := { NewKanbanCard event.taskID d.title "user" with
                      description := d.description
                      dependsOn := d.dependsOn
                      isBlocking := d.isBlocking
                      isUserTask := true }
      let m := m.insertCard event.taskID card
      let m := { m with columns := updCol m.columns .backlog (m.columns .backlog ++ [event.taskID]),
                        activityStatus := "Your task: " ++ truncateString d.title 25 }
      m.addDebugLog "user" "pm" ("Assigned to you: " ++ d.title)
    | _ => m
  | .sessionComplete =>
    let m := { m with complete := true, activityStatus := "Session complete!" }
    m.addDebugLog "complete" "system" "Session finished successfully"
  | .error =>
    match event.data with
    | .errorD err dataTaskID message =>
      let m :=
        match m.lookupCard dataTaskID with
        | some card => m.insertCard dataTaskID { card with error := some err }
        | none => m
      let m := { m with activityStatus := "Error: " ++ truncateString message 30 }
      m.addDebugLog "error" event.actor message
    | _ => m
  | _ => m

/-- Processing a whole event sequence, oldest first. -/
def processEvents (m : KModel) (es : List Event) : KModel :=
  es.foldl handleTeamEvent m

/-- The column of the card registered under `id`, if any. -/
def KModel.colOf (m : KModel) (id : String) : Option Col :=
  (m.lookupCard id).map (·.column)

/-! ## Checkpoint approval gate (`internal/team/checkpoint.go`)

`CheckpointLevel` and `CheckpointType` are Go string types; they are
modelled as `String` with the constants from the source. -/

def checkpointAll : String := "all"
def checkpointMajor : String := "major"
def checkpointNone : String := "none"

def checkpointPlanApproval : String := "plan_approval"
def checkpointMilestone : String := "milestone"
def checkpointReview : String := "review"
def checkpointDelivery : String := "delivery"

/-- `CheckpointManager.RequiresApproval` (checkpoint.go 80–92): a Go
`switch` on the manager's level with a `default: return true`. -/
def RequiresApproval (level checkpointType : String) : Bool :=
  if level = checkpointNone then false
  else if level = checkpointMajor then
    checkpointType == checkpointPlanApproval || checkpointType == checkpointDelivery
  else if level = checkpointAll then true
  else true

/-! ## Go string helpers used by the PM selector (`internal/team/pm.go`)

`strings.Contains`, `strings.Fields` and `strings.ToLower`, modelled on the
character lists underlying Lean strings (the selector's keyword tables are
ASCII, where byte- and character-level containment agree). -/

/-- `strings.Contains s sub`: `sub` occurs as a contiguous substring. -/
def goContains (s sub : String) : Bool :=
  decide (sub.data <:+: s.data)

/-- Splitting a character list around whitespace runs; `w` is the current
word accumulated in reverse. -/
def goFieldsAux : List Char → List Char → List String
  | [], [] => []
  | [], w => [⟨w.reverse⟩]
  | c :: cs, w =>
    if c.isWhitespace then
      match w with
      | [] => goFieldsAux cs []
      | _ => (⟨w.reverse⟩ : String) :: goFieldsAux cs []
    else goFieldsAux cs (c :: w)

/-- `strings.Fields`: split around runs of whitespace, no empty words. -/
def goFields (s : String) : List String :=
  goFieldsAux s.data []

/-- `strings.ToLower` on the character list (the selector's inputs of
interest are ASCII, where this agrees with Go's byte-level lowering). -/
def goToLower (s : String) : String :=
  ⟨s.data.map Char.toLower⟩

/-! ## PM selector (`internal/team/pm.go`) -/

/-- `PMStrength` (pm.go 26–31) minus the mutable `Score` scratch field. -/
structure PMStrength where
  aiID : String
  displayName : String
  strengths : List String

/-- `GetPMStrengths` (pm.go 34–86). -/
def GetPMStrengths : List PMStrength :=
  [ { aiID := "claude", displayName := "Claude",
      strengths := ["nuanced reasoning", "writing", "analysis", "ethics",
                    "explanation", "documentation", "architecture", "design"] },
    { aiID := "gpt", displayName := "GPT",
      strengths := ["coding", "implementation", "debugging", "api design",
                    "system design", "data analysis", "algorithms"] },
    { aiID := "gemini", displayName := "Gemini",
      strengths := ["research", "multimodal", "information synthesis",
                    "fact checking", "summarization", "translation"] },
    { aiID := "groq", displayName := "Groq (Llama)",
      strengths := ["speed", "quick iteration", "brainstorming",
                    "rapid prototyping"] } ]

/-- The keyword-scoring loop of `Select` (pm.go 110–122): `+2` for each
strength phrase contained in the lowered task text, then `+1` for each
individual word of the phrase contained (also for one-word phrases). -/
def scoreStrengths (taskLower : String) (strengths : List String) : Int :=
  strengths.foldl
    (fun acc strength =>
      let acc := if goContains taskLower strength then acc + 2 else acc
      (goFields strength).foldl
        (fun a word => if goContains taskLower word then a + 1 else a) acc)
    0

/-- One keyword category of `getTaskTypeBonus`: the Go loop breaks at the
first keyword contained in the task, granting `+3` when the candidate is
the category's favoured AI. -/
def categoryBonus (task : String) (keywords : List String) (aiID favoured : String) : Int :=
  match keywords.find? (fun kw => goContains task kw) with
  | some _ => if aiID = favoured then 3 else 0
  | none => 0

/-- `getTaskTypeBonus` (pm.go 150–198). -/
def getTaskTypeBonus (task aiID : String) : Int :=
  categoryBonus task ["code", "implement", "build", "develop", "program",
                      "function", "api", "debug", "fix"] aiID "gpt"
  + categoryBonus task ["write", "document", "explain", "analyze", "review",
                        "design", "architect", "plan"] aiID "claude"
  + categoryBonus task ["research", "find", "search", "compare",
                        "investigate", "summarize"] aiID "gemini"
  + categoryBonus task ["quick", "fast", "simple", "prototype",
                        "brainstorm", "iterate"] aiID "groq"

/-- Total score of one candidate in `Select`. -/
def candidateScore (taskLower : String) (pm : PMStrength) : Int :=
  scoreStrengths taskLower pm.strengths + getTaskTypeBonus taskLower pm.aiID

/-- The best-candidate loop of `Select` (pm.go 94–131): iterate the fixed
strengths table, skip unavailable candidates, keep the first strictly
greater score; `bestPM` starts `""` and `bestScore` starts `-1`. -/
def selectLoop (taskLower : String) (availableMembers : List String) :
    String × Int :=
  GetPMStrengths.foldl
    (fun best pm =>
      if availableMembers.contains pm.aiID then
        let score := candidateScore taskLower pm
        if score > best.2 then (pm.aiID, score) else best
      else best)
    ("", -1)

/-- `PMSelector.Select` (pm.go 89–147).  Every `return` in the source pairs
its value with a `nil` error, hence the `Except` image is always `.ok`. -/
def Select (task : String) (availableMembers : List String) :
    Except String String :=
  let taskLower := goToLower task
  let bestPM := (selectLoop taskLower availableMembers).1
  if bestPM = "" then
    if availableMembers.contains "claude" then .ok "claude"
    else
      match availableMembers with
      | m :: _ => .ok m
      | [] => .ok bestPM
  else .ok bestPM

/-! ## Artifacts (`internal/team/artifacts.go`) -/

/-- The artifact record assembled by the mode executors (save-to-disk
behaviour is out of scope). -/
structure Artifact where
  name : String
  type : String
  content : String
  description : String
  createdBy : String
  deriving Repr

/-! ## Mode executors (`internal/team/modes.go`)

Each `registry.Invoke` / `registry.Stream` call is an external model
invocation; its outcome is an oracle input.  An oracle maps every call site
(and loop position) of the executor to the call's result: `.ok content` or
`.error message`.  `getDisplayName` falls back to the AI ID when no display
name is configured; the embedding uses the ID (the no-config case). -/

/-- `truncateOutput` (modes.go 517–522) — console printing helper; included
for completeness of the translated file, unused by the theorems. -/
def truncateOutput (s : String) (maxLen : Nat) : String :=
  if s.length ≤ maxLen then s else s.take maxLen ++ "\n... (truncated)"

/-- Outcomes of the three driver and three navigator invocations of
`executePairProgramming`, indexed by iteration. -/
structure PairOracle where
  driver : Nat → Except String String
  navigator : Nat → Except String String

/-- `buildContext` (modes.go 510–515). -/
def buildContext (current : String) (_iteration : Nat) : String :=
  if current = "" then "This is the start. Begin the implementation."
  else "Current progress... continue from here: " ++ current

/-- The `for i := 0; i < 3; i++` loop of `executePairProgramming`
(modes.go 92–145): a failed driver call aborts the mode
(`return nil, fmt.Errorf("driver failed: %w", err)`); a failed navigator
call is printed and skipped; roles swap every iteration. -/
def pairIter (o : PairOracle) :
    Nat → Nat → String → String → String → Except String String
  | 0, _, _, _, currentWork => .ok currentWork
  | n + 1, i, driver, navigator, currentWork =>
    match o.driver i with
    | .error e => .error ("driver failed: " ++ e)
    | .ok content =>
      let currentWork := currentWork ++ "\n\n### Driver Output:\n" ++ content
      let currentWork :=
        match o.navigator i with
        | .error _ => currentWork
        | .ok review => currentWork ++ "\n\n### Navigator Review:\n" ++ review
      pairIter o n (i + 1) navigator driver currentWork

/-- `executePairProgramming` (modes.go 70–156). -/
def executePairProgramming (o : PairOracle) (members : List String)
    (pm : String) : Except String (List Artifact) :=
  if members.length < 2 then
    .error "pair programming requires at least 2 team members"
  else
    let driver := members.getD 0 ""
    let navigator :=
      if driver = pm ∧ members.length > 2 then members.getD 2 ""
      else members.getD 1 ""
    match pairIter o 3 0 driver navigator "" with
    | .error e => .error e
    | .ok currentWork =>
      .ok [{ name := "pair_output.md", type := "code", content := currentWork,
             description := "Pair programming session output",
             createdBy := members.getD 0 "" ++ ", " ++ members.getD 1 "" }]

/-- Outcomes of the invocations of `executeConsultation`: the PM's initial
call, one consultation per roster position, the PM's final call. -/
structure ConsultOracle where
  initial : Except String String
  consult : Nat → Except String String
  final : Except String String

/-- The consultation loop (modes.go 190–217): members equal to the PM are
skipped; a failed consultation is printed and skipped (`continue`). -/
def consultLoop (o : ConsultOracle) (pm : String) :
    List String → Nat → String → String
  | [], _, ctxt => ctxt
  | member :: rest, i, ctxt =>
    if member = pm then consultLoop o pm rest (i + 1) ctxt
    else
      match o.consult i with
      | .error _ => consultLoop o pm rest (i + 1) ctxt
      | .ok content =>
        consultLoop o pm rest (i + 1)
          (ctxt ++ "\n\n" ++ member ++ "'s Input:\n" ++ content)

/-- `executeConsultation` (modes.go 160–247): the PM's initial and final
calls propagate their errors (`return nil, err`). -/
def executeConsultation (o : ConsultOracle) (members : List String)
    (pm : String) : Except String (List Artifact) :=
  match o.initial with
  | .error e => .error e
  | .ok content =>
    let ctxt := "PM Initial Approach:\n" ++ content
    let ctxt := consultLoop o pm members 0 ctxt
    match o.final with
    | .error e => .error e
    | .ok finalContent =>
      let _ := ctxt
      .ok [{ name := "consultation_output.md", type := "document",
             content := finalContent,
             description := "Final output from consultation",
             createdBy := pm }]

/-- Outcomes of the invocations of `executeRoundRobin`, indexed by round
(1-based) and roster position. -/
structure RROracle where
  call : Nat → Nat → Except String String

/-- One round of `executeRoundRobin` (modes.go 261–285): a failed member
call is printed and skipped (`continue`). -/
def rrRound (o : RROracle) (round : Nat) :
    List String → Nat → String → String
  | [], _, acc => acc
  | member :: rest, i, acc =>
    match o.call round i with
    | .error _ => rrRound o round rest (i + 1) acc
    | .ok content =>
      rrRound o round rest (i + 1)
        (acc ++ "\n\n### " ++ member ++ " (Round " ++ toString round ++ "):\n" ++ content)

/-- `executeRoundRobin` (modes.go 251–297): two rounds over the roster; no
call failure aborts the mode. -/
def executeRoundRobin (o : RROracle) (members : List String) :
    Except String (List Artifact) :=
  let acc := rrRound o 1 members 0 ""
  let acc := rrRound o 2 members 0 acc
  .ok [{ name := "round_robin_output.md", type := "document", content := acc,
         description := "Combined round-robin contributions",
         createdBy := String.intercalate ", " members }]

/-- Outcomes of the invocations of `executeDivideConquer`: the PM's divide
call, one streamed worker call per roster position (`.ok` is the full
streamed content, `.error` covers both a failed stream start and a
mid-stream error chunk, after either of which `results[idx]` stays empty),
and the PM's merge call. -/
structure DCOracle where
  divide : Except String String
  worker : Nat → Except String String
  merge : Except String String

/-- The joined `results` slice of `executeDivideConquer` (modes.go
324–375): worker `idx` contributes its formatted output on success and the
empty string on failure (no sibling is cancelled). -/
def dcResults (o : DCOracle) (members : List String) : List String :=
  (List.range members.length).map fun idx =>
    match o.worker idx with
    | .error _ => ""
    | .ok content =>
      "### " ++ members.getD idx "" ++ " (Subtask " ++ toString (idx + 1)
        ++ "):\n" ++ content

/-- The merge input (modes.go 387–393): concatenation of the non-empty
worker results, each followed by a blank line. -/
def dcAllResults (o : DCOracle) (members : List String) : String :=
  (dcResults o members).foldl
    (fun acc r => if r ≠ "" then acc ++ r ++ "\n\n" else acc) ""

/-- `executeDivideConquer` (modes.go 301–417): a failed divide call or a
failed merge call aborts the mode (`return nil, err`); failed workers are
only printed. -/
def executeDivideConquer (o : DCOracle) (members : List String)
    (pm : String) : Except String (List Artifact) :=
  match o.divide with
  | .error e => .error e
  | .ok _divideContent =>
    let allResults := dcAllResults o members
    match o.merge with
    | .error e => .error e
    | .ok mergeContent =>
      let _ := allResults
      .ok [{ name := "merged_output.md", type := "document",
             content := mergeContent,
             description := "Merged divide-and-conquer output",
             createdBy := pm }]

/-- Outcomes of the invocations of `executeFreeForm`: one brainstorm call
per roster position, the PM's synthesis call, the PM's final call. -/
structure FFOracle where
  brainstorm : Nat → Except String String
  synthesis : Except String String
  final : Except String String

/-- The brainstorm loop of `executeFreeForm` (modes.go 431–450): a failed
member call is printed and skipped (`continue`). -/
def ffBrainstorm (o : FFOracle) :
    List String → Nat → String → String
  | [], _, acc => acc
  | member :: rest, i, acc =>
    match o.brainstorm i with
    | .error _ => ffBrainstorm o rest (i + 1) acc
    | .ok content =>
      ffBrainstorm o rest (i + 1) (acc ++ "### " ++ member ++ ":\n" ++ content ++ "\n\n")

/-- `executeFreeForm` (modes.go 421–501): the PM's synthesis and final
calls propagate their errors (`return nil, err`). -/
def executeFreeForm (o : FFOracle) (members : List String) (_pm : String) :
    Except String (List Artifact) :=
  let discussion := ffBrainstorm o members 0 ""
  match o.synthesis with
  | .error e => .error e
  | .ok _synthContent =>
    match o.final with
    | .error e => .error e
    | .ok finalContent =>
      let _ := discussion
      .ok [{ name := "freeform_output.md", type := "document",
             content := finalContent,
             description := "Free-form collaboration output",
             createdBy := String.intercalate ", " members }]

/-! ## `Runner.Run` (`internal/team/team.go` 143–266)

`Run` is embedded as a trace-producing function.  The trace records, in
program order, every call to `r.emit` (the argument event; whether the
channel then drops it is the business of `runnerEmit`), every assignment to
`session.Phase`, and a marker for each phase's unit of work.  The session
is created with `Phase: PhaseAnalysis` before the first trace item.

The provider-dependent sub-steps are oracle inputs:
`createPlan` (one `Invoke` plus the total parser `parsePlanResponse`, so it
fails exactly when the `Invoke` fails), `os.MkdirAll`, `executor.Execute`
and `runReview`.  `deliver` (team.go 428–455) logs file-system failures as
warnings and always returns `nil`, and `requestApproval` (team.go 492–501)
always returns `true` (console auto-approve), so neither is an oracle. -/

/-- `PlanStep` (`team.go` 103–110) as far as `Run` reads it. -/
structure PlanStepS where
  id : String
  description : String
  assignedTo : String
  dependsOn : List String
  deriving Repr

/-- The fields of `Options` (`team.go` 36–47) read by `Run`. -/
structure RunOptions where
  task : String
  pm : String
  mode : String
  members : List String
  checkpointLevel : String
  outputDir : String

/-- Oracle outcomes for the provider/file-system calls inside `Run`.  The
`plan` outcome carries `(summary, parsed mode, steps)`. -/
structure RunOracle where
  plan : Except String (String × String × List PlanStepS)
  mkdir : Except String Unit
  exec : Except String (List Artifact)
  review : Except String String

/-- A marker for each phase's unit of work inside `Run`. -/
inductive WorkTag where
  | selectPMW
  | createPlanW
  | executeW
  | reviewW
  | deliverW
  deriving DecidableEq, Repr

/-- The phase during which each unit of work runs. -/
def phaseOfWork : WorkTag → GoPhase
  | .selectPMW => phaseAnalysis
  | .createPlanW => phasePlanning
  | .executeW => phaseExecution
  | .reviewW => phaseReview
  | .deliverW => phaseDelivery

/-- One observable step of `Run`. -/
inductive TraceItem where
  | emitE (e : Event)
  | setPhase (p : GoPhase)
  | work (w : WorkTag)
  deriving Repr

/-- A phase-changed emission (`NewEvent(EventPhaseChanged, "system", ...)`). -/
def pcEvent (oldPhase newPhase : GoPhase) : Event :=
  NewEvent .phaseChanged "system" (.phaseChangedD oldPhase newPhase)

/-- An error emission (`NewEvent(EventError, "system", ErrorData{...})`). -/
def errEvent (err message : String) : Event :=
  NewEvent .error "system" (.errorD err "" message)

/-- The `EventTaskCreated` emission for one plan step (team.go 197–205). -/
def tcEvent (pm : String) (step : PlanStepS) : TraceItem :=
  .emitE (NewTaskEvent .taskCreated step.id pm
    (.taskCreatedD { title := step.description, description := step.description,
                     assignedTo := step.assignedTo, isBlocking := false,
                     dependsOn := step.dependsOn }))

/-- `Runner.selectPM` (team.go 279–288): a forced PM short-circuits,
otherwise the deterministic selector runs. -/
def runnerSelectPM (opts : RunOptions) : Except String String :=
  if opts.pm ≠ "" then .ok opts.pm else Select opts.task opts.members

/-- `Runner.requestApproval` (team.go 492–501): console auto-approve. -/
def requestApprovalRun : Bool := true

/-- `Runner.Run` (team.go 143–266): the trace of emits, phase assignments
and work markers, together with the returned error.  The guard
`if opts.checkpointLevel ≠ none ∧ requestApprovalRun = false` renders
`if opts.CheckpointLevel != CheckpointNone { if !r.requestApproval(...)
{ return ... } }`. -/
def run (opts : RunOptions) (o : RunOracle) :
    List TraceItem × Except String Unit :=
  let t := [TraceItem.emitE (pcEvent (-1) phaseAnalysis), TraceItem.work .selectPMW]
  match runnerSelectPM opts with
  | .error e =>
    (t ++ [.emitE (errEvent e "PM selection failed")],
     .error ("PM selection failed: " ++ e))
  | .ok pm =>
    let t := t ++ [.emitE (NewEvent .pmSelected pm (.pmSelectedD pm pm))]
    let t := t ++ [.emitE (pcEvent phaseAnalysis phasePlanning),
                   .setPhase phasePlanning, .work .createPlanW]
    match o.plan with
    | .error e =>
      (t ++ [.emitE (errEvent e "Planning failed")],
       .error ("planning failed: " ++ e))
    | .ok (summary, parsedMode, steps) =>
      let mode := if opts.mode ≠ "" then opts.mode else parsedMode
      let t := t ++ [.emitE (NewEvent .pmDecision pm
                      (.pmDecisionD mode summary steps.length))]
      let t := t ++ steps.map (tcEvent pm)
      if opts.checkpointLevel ≠ checkpointNone ∧ requestApprovalRun = false then
        (t, .error "plan not approved")
      else
        match (if opts.outputDir ≠ "" then o.mkdir else .ok ()) with
        | .error e => (t, .error ("creating project directory: " ++ e))
        | .ok _ =>
          let t := t ++ [.emitE (pcEvent phasePlanning phaseExecution),
                         .setPhase phaseExecution, .work .executeW]
          match o.exec with
          | .error e =>
            (t ++ [.emitE (errEvent e "Execution failed")],
             .error ("execution failed: " ++ e))
          | .ok _arts =>
            let t := t ++ [.emitE (pcEvent phaseExecution phaseReview),
                           .setPhase phaseReview, .work .reviewW]
            match o.review with
            | .error e => (t, .error ("review failed: " ++ e))
            | .ok _ =>
              let t := t ++ [.emitE (pcEvent phaseReview phaseDelivery),
                             .setPhase phaseDelivery, .work .deliverW]
              (t ++ [.setPhase phaseComplete,
                     .emitE (NewEvent .sessionComplete "system" .noneD)],
               .ok ())

/-- The successive values assigned to `session.Phase` along a trace (the
session is created already holding `PhaseAnalysis`). -/
def phaseAssignments (t : List TraceItem) : List GoPhase :=
  t.filterMap fun it =>
    match it with
    | .setPhase p => some p
    | _ => none

/-- One step of the phase-discipline checker: from announced phase `s`,
a phase-changed emit must carry `(s, s+1)` and announce at most Delivery,
a phase assignment up to Delivery must re-state the announced phase while
the assignment of Complete follows Delivery directly with no announcement,
a session-complete emit happens only once Complete is reached, and work
runs only in its own announced phase.  `none` signals a violation. -/
def stepOK (s : GoPhase) (it : TraceItem) : Option GoPhase :=
  match it with
  | .emitE e =>
    match e.type with
    | .phaseChanged =>
      match e.data with
      | .phaseChangedD oldPhase newPhase =>
        if oldPhase = s ∧ newPhase = s + 1 ∧ newPhase ≤ phaseDelivery then
          some newPhase
        else none
      | _ => none
    | .sessionComplete => if s = phaseComplete then some s else none
    | _ => some s
  | .setPhase p =>
    if p ≤ phaseDelivery then (if p = s then some s else none)
    else if p = phaseComplete ∧ s = phaseDelivery then some phaseComplete
    else none
  | .work w => if phaseOfWork w = s then some s else none

/-- The phase-discipline checker over a whole trace. -/
def discipline : GoPhase → List TraceItem → Bool
  | _, [] => true
  | s, it :: rest =>
    match stepOK s it with
    | some s' => discipline s' rest
    | none => false

/-! ## Derived notions used by the statements -/

/-- An `Except` value that is a success. -/
def ExceptOk {ε α : Type} (x : Except ε α) : Prop :=
  ∃ a, x = .ok a

/-- The scored available candidates of `Select`, in the fixed order of the
strengths table. -/
def candScores (task : String) (members : List String) :
    List (String × Int) :=
  (GetPMStrengths.filter (fun pm => members.contains pm.aiID)).map
    (fun pm => (pm.aiID, candidateScore (goToLower task) pm))

/-- The earliest entry with maximal second component (later entries win
only with a strictly greater score). -/
def firstMax : List (String × Int) → Option (String × Int)
  | [] => none
  | p :: rest =>
    match firstMax rest with
    | none => some p
    | some q => if q.2 > p.2 then some q else some p

/-- The update step of the best-candidate loop of `Select`. -/
def selStep (best p : String × Int) : String × Int :=
  if p.2 > best.2 then p else best

/-- Maximum of the second components, with the `-1` floor that `bestScore`
starts from in `Select`. -/
def maxSnd : List (String × Int) → Int
  | [] => -1
  | p :: rest => max p.2 (maxSnd rest)

/-- The strengths-table entry of a member (empty strengths otherwise). -/
def strengthOf (aiID : String) : PMStrength :=
  (GetPMStrengths.find? (fun pm => pm.aiID == aiID)).getD
    { aiID := aiID, displayName := aiID, strengths := [] }

/-- Modelled from the spec: the scoring formula as the claim words it —
2 points per keyword phrase contained in the lowered task text, plus 1
point per individual word of a **multi-word** keyword phrase found (no word
bonus for one-word phrases), plus the mutually exclusive task-type bonus. -/
def specPhraseScore (taskLower phrase : String) : Int :=
  (if goContains taskLower phrase then 2 else 0) +
  (if (goFields phrase).length > 1 then
    (goFields phrase).foldl
      (fun a word => if goContains taskLower word then a + 1 else a) 0
   else 0)

/-- Modelled from the spec: a candidate's total score under the claim's
formula. -/
def specScore (taskLower : String) (pm : PMStrength) : Int :=
  pm.strengths.foldl (fun acc ph => acc + specPhraseScore taskLower ph) 0
    + getTaskTypeBonus taskLower pm.aiID

/-- Modelled from the spec: the selector as the claim words it — score each
available candidate, return the candidate with the highest total score,
ties broken by roster order (the first candidate reaching the maximum
score). -/
def specSelect (task : String) (members : List String) : String :=
  let taskLower := goToLower task
  let scored : List (String × Int) :=
    (members.filter (fun m => GetPMStrengths.any (fun pm => pm.aiID == m))).map
      (fun m => (m, specScore taskLower (strengthOf m)))
  match scored.find? (fun p => p.2 == maxSnd scored) with
  | some p => p.1
  | none => ""

/-- Recognizes the emission of an `EventError` whose `ErrorData.Message` is
`"PM selection failed"` (the fatal branch of `Run`, team.go 162–167). -/
def isPMSelectionFailure : TraceItem → Bool
  | .emitE e =>
    e.type == .error &&
      (match e.data with
       | .errorD _ _ message => message == "PM selection failed"
       | _ => false)
  | _ => false

/-- Recognizes the assignment `session.Phase = PhaseComplete`. -/
def isSetPhaseComplete : TraceItem → Bool
  | .setPhase p => p == phaseComplete
  | _ => false

/-- Recognizes a phase-changed emission announcing new phase `p`. -/
def announcesPhase (p : GoPhase) : TraceItem → Bool
  | .emitE e =>
    e.type == .phaseChanged &&
      (match e.data with
       | .phaseChangedD _ newPhase => newPhase == p
       | _ => false)
  | _ => false

/-- The board invariant of the claim: the card map's key is the card's ID,
each card's ID occurs exactly once among the column lists — in the column
named by the card's `Column` field — and every column entry is a known
card. -/
def KModel.Inv (m : KModel) : Prop :=
  (∀ p ∈ m.cards, ∀ c, m.lookupCard p.1 = some c →
    c.id = p.1 ∧ (m.columns c.column).count p.1 = 1 ∧
      ∀ col, col ≠ c.column → (m.columns col).count p.1 = 0)
  ∧ ∀ col : Col, ∀ id ∈ m.columns col, (m.lookupCard id).isSome

/-! ## Concrete data for the counterexamples and witnesses -/

/-- A task-created event for task `"t"` with no dependencies. -/
def evCreateT : Event :=
  NewTaskEvent .taskCreated "t" "pm"
    (.taskCreatedD { title := "Implement parser", description := "",
                     assignedTo := "gpt", isBlocking := false, dependsOn := [] })

/-- A task-started event for task `"t"`. -/
def evStartT : Event := NewTaskEvent .taskStarted "t" "gpt" .noneD

/-- A pm-approved event for task `"t"`. -/
def evApproveT : Event := NewTaskEvent .pmApproved "t" "pm" .noneD

/-- Creation events for two dependency tasks and a task depending on both. -/
def evCreateA : Event :=
  NewTaskEvent .taskCreated "a" "pm"
    (.taskCreatedD { title := "Dep A", description := "", assignedTo := "gpt",
                     isBlocking := false, dependsOn := [] })

def evCreateB : Event :=
  NewTaskEvent .taskCreated "b" "pm"
    (.taskCreatedD { title := "Dep B", description := "", assignedTo := "gemini",
                     isBlocking := false, dependsOn := [] })

def evCreateDep : Event :=
  NewTaskEvent .taskCreated "t" "pm"
    (.taskCreatedD { title := "Blocked task", description := "",
                     assignedTo := "claude", isBlocking := false,
                     dependsOn := ["a", "b"] })

/-- A sample event for the channel witnesses. -/
def evSample : Event := NewEvent .pmSelected "claude" (.pmSelectedD "claude" "Claude")

/-- A pair-programming oracle whose driver calls always fail. -/
def pairFailDriver : PairOracle :=
  { driver := fun _ => .error "boom", navigator := fun _ => .ok "looks fine" }

/-- A pair-programming oracle whose calls all succeed. -/
def pairAllOk : PairOracle :=
  { driver := fun _ => .ok "code", navigator := fun _ => .ok "review" }

/-- `Run` options of the all-success counterexample run: forced PM, forced
no checkpoints, no output directory. -/
def c1opts : RunOptions :=
  { task := "build the parser", pm := "m1", mode := "", members := [],
    checkpointLevel := "none", outputDir := "" }

/-- All-success oracle for `Run`. -/
def c1oracle : RunOracle :=
  { plan := .ok ("the plan", "free_form", []), mkdir := .ok (),
    exec := .ok [], review := .ok "fine" }

/-! # Theorems -/

/-! ## Board lemmas -/

theorem lookupCard_addDebugLog (m : KModel) (a b c : String) (id : String) :
    (m.addDebugLog a b c).lookupCard id = m.lookupCard id := rfl

theorem lookupCard_insertCard (m : KModel) (tid : String) (c : KCard) (id : String) :
    (m.insertCard tid c).lookupCard id
      = if tid = id then some c else m.lookupCard id := by
  by_cases h : tid = id <;>
    simp [KModel.insertCard, KModel.lookupCard, List.find?_cons, h]

theorem cards_moveCard (m : KModel) (c : KCard) (toCol : Col) :
    (m.moveCard c toCol).cards = (c.id, { c with column := toCol }) :: m.cards := rfl

theorem lookupCard_moveCard (m : KModel) (c : KCard) (toCol : Col) (id : String) :
    (m.moveCard c toCol).lookupCard id
      = if c.id = id then some { c with column := toCol } else m.lookupCard id := by
  by_cases h : c.id = id <;>
    simp [KModel.moveCard, KModel.insertCard, KModel.lookupCard,
      List.find?_cons, h]

theorem colOf_cards_eq {m' m : KModel} (h : m'.cards = m.cards) (id : String) :
    m'.colOf id = m.colOf id := by
  unfold KModel.colOf KModel.lookupCard
  rw [h]

theorem colOf_moveCard (m : KModel) (c : KCard) (toCol : Col) (id : String) :
    (m.moveCard c toCol).colOf id = if c.id = id then some toCol else m.colOf id := by
  unfold KModel.colOf
  rw [lookupCard_moveCard]
  by_cases h : c.id = id <;> simp [h]

theorem colOf_insertCard (m : KModel) (tid : String) (c : KCard) (id : String) :
    (m.insertCard tid c).colOf id
      = if tid = id then some c.column else m.colOf id := by
  unfold KModel.colOf
  rw [lookupCard_insertCard]
  by_cases h : tid = id <;> simp [h]

/-- **C8.** For every checkpoint type, level `none` never requires
approval; level `all` requires approval for every checkpoint type; level
`major` requires approval exactly for the plan-approval and delivery types;
in particular, at level `major` a milestone checkpoint auto-grants while a
delivery checkpoint requires approval. -/
theorem C8_checkpoint_levels (ty : String) :
    RequiresApproval checkpointNone ty = false
    ∧ RequiresApproval checkpointAll ty = true
    ∧ (RequiresApproval checkpointMajor ty = true ↔
        ty = checkpointPlanApproval ∨ ty = checkpointDelivery)
    ∧ RequiresApproval checkpointMajor checkpointMilestone = false
    ∧ RequiresApproval checkpointMajor checkpointDelivery = true := by
  refine ⟨?_, ?_, ?_, by decide, by decide⟩
  · simp [RequiresApproval, checkpointNone]
  · simp [RequiresApproval, checkpointAll, checkpointNone, checkpointMajor]
  · simp [RequiresApproval, checkpointMajor, checkpointNone,
      checkpointPlanApproval, checkpointDelivery]

/-- **C4.** `emit` never blocks the producer: with free buffer space the
event is enqueued at the back, on a full buffer the event is dropped
leaving the channel unchanged, and the buffer never exceeds its capacity of
100.  The executor-side `emit` additionally drops every event when no
channel is attached. -/
theorem C4_emit_nonblocking (buf : List Event) (e : Event) :
    (buf.length < runnerChanCapacity → runnerEmit buf e = buf ++ [e])
    ∧ (runnerChanCapacity ≤ buf.length → runnerEmit buf e = buf)
    ∧ (buf.length ≤ runnerChanCapacity →
        (runnerEmit buf e).length ≤ runnerChanCapacity)
    ∧ executorEmit none e = none
    ∧ executorEmit (some buf) e = some (runnerEmit buf e) := by
  refine ⟨fun h => by simp [runnerEmit, h], fun h => ?_, fun h => ?_, rfl, rfl⟩
  · simp [runnerEmit, Nat.not_lt.mpr h]
  · by_cases hlt : buf.length < runnerChanCapacity
    · simp only [runnerEmit, hlt, if_true, List.length_append, List.length_singleton]
      revert hlt
      unfold runnerChanCapacity
      omega
    · simpa [runnerEmit, hlt] using h

/-- Witness for C4 at concrete buffers: an empty buffer enqueues, a buffer
of one hundred events drops. -/
theorem C4_witness :
    runnerEmit [] evSample = [evSample]
    ∧ runnerEmit (List.replicate 100 evSample) evSample
        = List.replicate 100 evSample := by
  refine ⟨(C4_emit_nonblocking [] evSample).1 (by decide), ?_⟩
  exact (C4_emit_nonblocking (List.replicate 100 evSample) evSample).2.1 (by decide)

/-- **C3** (the code against the claim).  A card created with the two
dependencies `a`, `b` — neither of whose cards is in Done — reports
`IsBlocked = false`: no code path ever populates the computed `BlockedBy`
slice, so the blocked flag is never raised.  The claim (blocked iff some
dependency is not Done) requires `true` here. -/
theorem C3_blocked_flag_never_set :
    ((processEvents NewKanbanModel [evCreateA, evCreateB, evCreateDep]).lookupCard "t"
        |>.map KCard.IsBlocked) = some false
    ∧ ((processEvents NewKanbanModel [evCreateA, evCreateB, evCreateDep]).lookupCard "t"
        |>.map (·.dependsOn)) = some ["a", "b"]
    ∧ (processEvents NewKanbanModel [evCreateA, evCreateB, evCreateDep]).colOf "a"
        = some .backlog
    ∧ (processEvents NewKanbanModel [evCreateA, evCreateB, evCreateDep]).colOf "b"
        = some .backlog := by
  refine ⟨by decide, by decide, by decide, by decide⟩

/-- **C2** (counterexample).  The board engine does move a card backward:
after create → pm-approved the card `t` sits in Done, and a subsequent
task-started event moves it back to InProgress — a strictly smaller column
in the order Backlog < InProgress < Review < Done. -/
theorem C2_counterexample :
    (processEvents NewKanbanModel [evCreateT, evApproveT]).colOf "t" = some .done
    ∧ (processEvents NewKanbanModel [evCreateT, evApproveT, evStartT]).colOf "t"
        = some .inProgress
    ∧ colRank .inProgress < colRank .done := by
  refine ⟨by decide, by decide, by decide⟩

/-- **C9** (counterexample).  After create → start → duplicate create of
the same task ID, the ID `t` occurs both in the InProgress column list and
in the Backlog column list, while the card registered under `t` names
Backlog — the card is not in exactly one column list. -/
theorem C9_counterexample :
    ((processEvents NewKanbanModel [evCreateT, evStartT, evCreateT]).columns
        .inProgress).count "t" = 1
    ∧ ((processEvents NewKanbanModel [evCreateT, evStartT, evCreateT]).columns
        .backlog).count "t" = 1
    ∧ (processEvents NewKanbanModel [evCreateT, evStartT, evCreateT]).colOf "t"
        = some .backlog := by
  refine ⟨by decide, by decide, by decide⟩

set_option maxHeartbeats 1600000 in
/-- **C2** (amended).  No event other than task creation ever places a
card in Backlog: if a card's column is Backlog after processing a
non-create event, it already was Backlog before.  In particular no
ordinary event moves a Done card back to Backlog.  (The counterexample
shows Done → InProgress and Done → Review regressions do occur.) -/
theorem C2_no_regression_to_backlog (m : KModel) (e : Event) (id : String)
    (h1 : e.type ≠ .taskCreated) (h2 : e.type ≠ .userTaskCreated)
    (h3 : (handleTeamEvent m e).colOf id = some .backlog) :
    m.colOf id = some .backlog := by
  obtain ⟨ty, tid, actor, data⟩ := e
  have hdl : ∀ (mm : KModel) (a b c : String),
      (mm.addDebugLog a b c).colOf id = mm.colOf id := fun _ _ _ _ => rfl
  cases ty <;> simp only [handleTeamEvent, lookupCard_addDebugLog] at h3 <;>
    try exact absurd rfl h1
  case userTaskCreated => exact absurd rfl h2
  case phaseChanged =>
    cases data <;> simpa [hdl, KModel.colOf, KModel.lookupCard] using h3
  case pmSelected =>
    cases data <;> simpa [hdl, KModel.colOf, KModel.lookupCard] using h3
  case pmDecision =>
    cases data <;> simpa [hdl, KModel.colOf, KModel.lookupCard] using h3
  case sessionComplete =>
    simpa [hdl, KModel.colOf, KModel.lookupCard] using h3
  case userTaskBlocking =>
    simpa [hdl, KModel.colOf, KModel.lookupCard] using h3
  case userTaskCompleted =>
    simpa [hdl, KModel.colOf, KModel.lookupCard] using h3
  case taskStarted =>
    rcases hlk : m.lookupCard tid with _ | card <;> simp only [hlk] at h3
    · simpa [KModel.colOf, KModel.lookupCard] using h3
    · have := h3
      simp only [hdl] at this
      rw [show ∀ (x : KModel) a b,
            ({ x with activeCardID := a, activityStatus := b } : KModel).colOf id
              = x.colOf id from fun _ _ _ => rfl] at this
      rw [colOf_moveCard] at this
      by_cases hc : card.id = id
      · simp [hc] at this
      · simpa [hc, KModel.colOf, KModel.lookupCard] using this
  case taskCompleted =>
    rcases hlk : m.lookupCard tid with _ | card <;> simp only [hlk] at h3
    · simpa [KModel.colOf, KModel.lookupCard] using h3
    · have := h3
      simp only [hdl] at this
      rw [show ∀ (x : KModel) b,
            ({ x with activityStatus := b } : KModel).colOf id
              = x.colOf id from fun _ _ => rfl] at this
      rw [colOf_moveCard] at this
      by_cases hc : card.id = id
      · simp [hc] at this
      · simpa [hc, KModel.colOf, KModel.lookupCard] using this
  case taskMovedToReview =>
    rcases hlk : m.lookupCard tid with _ | card <;> simp only [hlk] at h3
    · simpa [KModel.colOf, KModel.lookupCard] using h3
    · have := h3
      simp only [hdl] at this
      rw [show ∀ (x : KModel) b,
            ({ x with activityStatus := b } : KModel).colOf id
              = x.colOf id from fun _ _ => rfl] at this
      rw [colOf_moveCard] at this
      by_cases hc : card.id = id
      · simp [hc] at this
      · simpa [hc, KModel.colOf, KModel.lookupCard] using this
  case pmApproved =>
    rcases hlk : m.lookupCard tid with _ | card <;> simp only [hlk] at h3
    · simpa [KModel.colOf, KModel.lookupCard] using h3
    · have := h3
      simp only [hdl] at this
      rw [show ∀ (x : KModel) b,
            ({ x with activityStatus := b } : KModel).colOf id
              = x.colOf id from fun _ _ => rfl] at this
      rw [colOf_moveCard] at this
      by_cases hc : card.id = id
      · simp [hc] at this
      · simpa [hc, KModel.colOf, KModel.lookupCard] using this
  case taskProgress =>
    rcases hlk : m.lookupCard tid with _ | card <;> simp only [hlk] at h3
    · cases data <;> simpa [hdl, KModel.colOf, KModel.lookupCard] using h3
    · cases data <;>
        (try simpa [hdl, KModel.colOf, KModel.lookupCard] using h3)
      case taskProgressD content progress =>
        have := h3
        rw [show ∀ (x : KModel) b,
              ({ x with activityStatus := b } : KModel).colOf id
                = x.colOf id from fun _ _ => rfl] at this
        by_cases hlen : content.length > 50
        · simp only [hlen, if_true] at this
          rw [hdl, colOf_insertCard] at this
          by_cases hc : tid = id
          · subst hc
            simp only [KModel.colOf, hlk, Option.map_some] at this ⊢
            simpa using this
          · simpa [hc] using this
        · simp only [hlen, if_false] at this
          rw [colOf_insertCard] at this
          by_cases hc : tid = id
          · subst hc
            simp only [KModel.colOf, hlk, Option.map_some] at this ⊢
            simpa using this
          · simpa [hc] using this
  case error =>
    cases data
    case errorD err dataTaskID message =>
      rcases hlk : m.lookupCard dataTaskID with _ | card <;>
        simp only [hlk] at h3
      · simpa [hdl, KModel.colOf, KModel.lookupCard] using h3
      · have := h3
        simp only [hdl] at this
        rw [show ∀ (x : KModel) b,
              ({ x with activityStatus := b } : KModel).colOf id
                = x.colOf id from fun _ _ => rfl] at this
        rw [colOf_insertCard] at this
        by_cases hc : dataTaskID = id
        · subst hc
          simp only [KModel.colOf, hlk, Option.map_some] at this ⊢
          simpa using this
        · simpa [hc] using this
    all_goals simpa [hdl, KModel.colOf, KModel.lookupCard] using h3

/-- Witness for C2 at a concrete input: a non-create event (session
complete) leaves the freshly created card in Backlog, and the theorem
recovers that it was in Backlog before. -/
theorem C2_witness :
    (processEvents NewKanbanModel [evCreateT]).colOf "t" = some .backlog := by
  refine C2_no_regression_to_backlog (processEvents NewKanbanModel [evCreateT])
    (NewEvent .sessionComplete "system" .noneD) "t" (by decide) (by decide) ?_
  decide

/-! ## Invariant lemmas for the board -/

theorem lookup_pair_mem {m : KModel} {tid : String} {c : KCard}
    (h : m.lookupCard tid = some c) : (tid, c) ∈ m.cards := by
  unfold KModel.lookupCard at h
  rcases hf : m.cards.find? (fun p => p.1 == tid) with _ | p
  · rw [hf] at h; simp at h
  · rw [hf] at h
    simp only [Option.map_some', Option.some.injEq] at h
    have hpm := List.mem_of_find?_eq_some hf
    have hpk := List.find?_some hf
    simp only [beq_iff_eq] at hpk
    have : p = (tid, c) := by
      cases p
      simp_all
    rwa [this] at hpm

theorem count_filter_ne_self (l : List String) (x : String) :
    (l.filter (fun cid => cid ≠ x)).count x = 0 := by
  rw [List.count_eq_zero]
  intro hmem
  have := List.of_mem_filter hmem
  simp at this

theorem count_filter_ne_other (l : List String) (x y : String) (h : y ≠ x) :
    (l.filter (fun cid => cid ≠ x)).count y = l.count y := by
  apply List.count_filter
  simpa using h

theorem inv_congr {m' m : KModel} (h1 : m'.cards = m.cards)
    (h2 : m'.columns = m.columns) (hInv : m.Inv) : m'.Inv := by
  constructor
  · intro p hp c hc
    rw [h1] at hp
    have hc' : m.lookupCard p.1 = some c := by
      unfold KModel.lookupCard at hc ⊢
      rwa [h1] at hc
    have := hInv.1 p hp c hc'
    rwa [h2]
  · intro col id hid
    rw [h2] at hid
    have := hInv.2 col id hid
    unfold KModel.lookupCard at this ⊢
    rwa [h1]

theorem not_in_columns_of_lookup_none {m : KModel} (hInv : m.Inv)
    {tid : String} (h : m.lookupCard tid = none) (col : Col) :
    (m.columns col).count tid = 0 := by
  rw [List.count_eq_zero]
  intro hmem
  have := hInv.2 col tid hmem
  rw [h] at this
  simp at this

theorem columns_moveCard (m : KModel) (c : KCard) (toCol col : Col) :
    (m.moveCard c toCol).columns col =
      (if col = toCol then
        (if toCol = c.column then
          (m.columns c.column).filter (fun cid => cid ≠ c.id)
         else m.columns toCol) ++ [c.id]
       else if col = c.column then
        (m.columns c.column).filter (fun cid => cid ≠ c.id)
       else m.columns col) := by
  show updCol _ _ _ _ = _
  by_cases h1 : col = toCol <;> by_cases h2 : toCol = c.column <;>
    by_cases h3 : col = c.column <;> simp_all [updCol]

theorem moveCard_preserves_inv (m : KModel) (tid : String) (card c' : KCard)
    (toCol : Col) (hInv : m.Inv) (hlk : m.lookupCard tid = some card)
    (hid : c'.id = card.id) (hcol : c'.column = card.column) :
    (m.moveCard c' toCol).Inv := by
  obtain ⟨hcid0, hcnt10, hcnt00⟩ :=
    hInv.1 (tid, card) (lookup_pair_mem hlk) card hlk
  have hcid : card.id = tid := by simpa using hcid0
  have hcnt1 : (m.columns card.column).count tid = 1 := by simpa using hcnt10
  have hcnt0 : ∀ col : Col, col ≠ card.column →
      (m.columns col).count tid = 0 := by simpa using hcnt00
  have hc'id : c'.id = tid := by rw [hid, hcid]
  have hcntS : ∀ col : Col,
      ((m.moveCard c' toCol).columns col).count tid
        = if col = toCol then 1 else 0 := by
    intro col
    rw [columns_moveCard]
    by_cases h1 : col = toCol
    · simp only [if_pos h1, List.count_append, hc'id]
      by_cases h2 : toCol = c'.column
      · simp only [if_pos h2, hc'id, count_filter_ne_self]
        simp
      · simp only [if_neg h2]
        rw [hcnt0 toCol (by rw [← hcol]; exact h2)]
        simp
    · simp only [if_neg h1]
      by_cases h3 : col = c'.column
      · simp only [if_pos h3, hc'id, count_filter_ne_self]
      · simp only [if_neg h3]
        exact hcnt0 col (by rw [← hcol]; exact h3)
  have hcntO : ∀ (y : String), y ≠ tid → ∀ col : Col,
      ((m.moveCard c' toCol).columns col).count y = (m.columns col).count y := by
    intro y hy col
    have hyid : y ≠ c'.id := by rw [hc'id]; exact hy
    have hysing : List.count y [c'.id] = 0 := by
      simp [List.count_singleton', hyid]
    rw [columns_moveCard]
    by_cases h1 : col = toCol
    · simp only [if_pos h1, List.count_append, hysing, Nat.add_zero]
      by_cases h2 : toCol = c'.column
      · simp only [if_pos h2, count_filter_ne_other _ _ _ hyid]
        rw [h1, h2]
      · simp only [if_neg h2]
        rw [h1]
    · simp only [if_neg h1]
      by_cases h3 : col = c'.column
      · simp only [if_pos h3, count_filter_ne_other _ _ _ hyid]
        rw [h3]
      · simp only [if_neg h3]
  constructor
  · intro p hp cc hcc
    by_cases hkey : p.1 = tid
    · have hlk' : (m.moveCard c' toCol).lookupCard p.1
          = some { c' with column := toCol } := by
        rw [lookupCard_moveCard]
        simp [hc'id, hkey]
      rw [hlk'] at hcc
      obtain rfl : cc = { c' with column := toCol } := (Option.some.inj hcc).symm
      refine ⟨by simp [hc'id, hkey], ?_, ?_⟩
      · rw [hkey]
        have := hcntS toCol
        simpa using this
      · intro col hne
        rw [hkey]
        have := hcntS col
        simpa [show col ≠ toCol from hne] using this
    · have hpmem : p ∈ m.cards := by
        rw [cards_moveCard] at hp
        rcases List.mem_cons.mp hp with hp | hp
        · exact absurd (by rw [hp]; simpa using hc'id) hkey
        · exact hp
      have hlk' : (m.moveCard c' toCol).lookupCard p.1 = m.lookupCard p.1 := by
        rw [lookupCard_moveCard]
        simp [show ¬ c'.id = p.1 from by rw [hc'id]; exact fun h => hkey h.symm]
      rw [hlk'] at hcc
      obtain ⟨hccid, hccnt1, hccnt0⟩ := hInv.1 p hpmem cc hcc
      refine ⟨hccid, ?_, ?_⟩
      · rw [hcntO p.1 hkey]
        exact hccnt1
      · intro col hne
        rw [hcntO p.1 hkey]
        exact hccnt0 col hne
  · intro col idX hmem
    by_cases hx : idX = tid
    · rw [lookupCard_moveCard]
      simp [hc'id, hx]
    · have hxid : (m.lookupCard idX).isSome := by
        rw [columns_moveCard] at hmem
        by_cases h1 : col = toCol
        · rw [if_pos h1] at hmem
          rcases List.mem_append.mp hmem with hmem | hmem
          · by_cases h2 : toCol = c'.column
            · rw [if_pos h2] at hmem
              exact hInv.2 c'.column idX (List.mem_of_mem_filter hmem)
            · rw [if_neg h2] at hmem
              exact hInv.2 toCol idX hmem
          · exfalso
            apply hx
            have : idX = c'.id := by simpa using hmem
            rw [this, hc'id]
        · rw [if_neg h1] at hmem
          by_cases h3 : col = c'.column
          · rw [if_pos h3] at hmem
            exact hInv.2 c'.column idX (List.mem_of_mem_filter hmem)
          · rw [if_neg h3] at hmem
            exact hInv.2 col idX hmem
      rw [lookupCard_moveCard]
      have : ¬ c'.id = idX := by rw [hc'id]; exact fun h => hx h.symm
      simpa [this] using hxid

theorem create_preserves_inv (m m' : KModel) (tid : String) (card : KCard)
    (hInv : m.Inv) (hfresh : m.lookupCard tid = none)
    (hid : card.id = tid) (hcol : card.column = .backlog)
    (hc : m'.cards = (tid, card) :: m.cards)
    (hcols : m'.columns = updCol m.columns .backlog (m.columns .backlog ++ [tid])) :
    m'.Inv := by
  have hcnt_fresh : ∀ col : Col, (m.columns col).count tid = 0 :=
    not_in_columns_of_lookup_none hInv hfresh
  have hlk' : ∀ idX, m'.lookupCard idX
      = if tid = idX then some card else m.lookupCard idX := by
    intro idX
    unfold KModel.lookupCard
    rw [hc]
    by_cases h : tid = idX <;> simp [List.find?_cons, h]
  have hcolumns : ∀ col : Col, m'.columns col
      = if col = Col.backlog then m.columns .backlog ++ [tid]
        else m.columns col := by
    intro col
    rw [hcols]
    by_cases h : col = Col.backlog <;> simp [updCol, h]
  constructor
  · intro p hp cc hcc
    by_cases hkey : p.1 = tid
    · rw [hlk' p.1, if_pos hkey.symm] at hcc
      obtain rfl : cc = card := (Option.some.inj hcc).symm
      refine ⟨by rw [hid, hkey], ?_, ?_⟩
      · rw [hkey, hcol, hcolumns]
        simp [hcnt_fresh Col.backlog]
      · intro col hne
        rw [hcol] at hne
        rw [hkey, hcolumns, if_neg hne]
        exact hcnt_fresh col
    · have hpmem : p ∈ m.cards := by
        rw [hc] at hp
        rcases List.mem_cons.mp hp with hp | hp
        · exact absurd (by rw [hp]) hkey
        · exact hp
      rw [hlk' p.1, if_neg (fun h => hkey h.symm)] at hcc
      obtain ⟨hccid, hccnt1, hccnt0⟩ := hInv.1 p hpmem cc hcc
      have hcount : ∀ col : Col, (m'.columns col).count p.1
          = (m.columns col).count p.1 := by
        intro col
        rw [hcolumns]
        by_cases h : col = Col.backlog
        · rw [if_pos h, h, List.count_append]
          simp [List.count_singleton', hkey]
        · rw [if_neg h]
      exact ⟨hccid, by rw [hcount]; exact hccnt1,
        fun col hne => by rw [hcount]; exact hccnt0 col hne⟩
  · intro col idX hmem
    rw [hcolumns] at hmem
    rw [hlk' idX]
    by_cases hx : tid = idX
    · simp [hx]
    · rw [if_neg hx]
      by_cases h : col = Col.backlog
      · rw [if_pos h] at hmem
        rcases List.mem_append.mp hmem with hmem | hmem
        · exact hInv.2 Col.backlog idX hmem
        · have hxeq : idX = tid := by simpa using hmem
          exact absurd hxeq.symm hx
      · rw [if_neg h] at hmem
        exact hInv.2 col idX hmem

theorem reinsert_preserves_inv (m m' : KModel) (tid : String) (card c' : KCard)
    (hInv : m.Inv) (hlk : m.lookupCard tid = some card)
    (hid : c'.id = card.id) (hcol : c'.column = card.column)
    (hc : m'.cards = (tid, c') :: m.cards)
    (hcols : m'.columns = m.columns) : m'.Inv := by
  obtain ⟨hcid0, hcnt10, hcnt00⟩ :=
    hInv.1 (tid, card) (lookup_pair_mem hlk) card hlk
  have hcid : card.id = tid := by simpa using hcid0
  have hcnt1 : (m.columns card.column).count tid = 1 := by simpa using hcnt10
  have hcnt0 : ∀ col : Col, col ≠ card.column →
      (m.columns col).count tid = 0 := by simpa using hcnt00
  have hlk' : ∀ idX, m'.lookupCard idX
      = if tid = idX then some c' else m.lookupCard idX := by
    intro idX
    unfold KModel.lookupCard
    rw [hc]
    by_cases h : tid = idX <;> simp [List.find?_cons, h]
  constructor
  · intro p hp cc hcc
    by_cases hkey : p.1 = tid
    · rw [hlk' p.1, if_pos hkey.symm] at hcc
      obtain rfl : cc = c' := (Option.some.inj hcc).symm
      refine ⟨by rw [hid, hcid, hkey], ?_, ?_⟩
      · rw [hkey, hcol, hcols]
        exact hcnt1
      · intro col hne
        rw [hcol] at hne
        rw [hkey, hcols]
        exact hcnt0 col hne
    · have hpmem : p ∈ m.cards := by
        rw [hc] at hp
        rcases List.mem_cons.mp hp with hp | hp
        · exact absurd (by rw [hp]) hkey
        · exact hp
      rw [hlk' p.1, if_neg (fun h => hkey h.symm)] at hcc
      obtain ⟨hccid, hccnt1, hccnt0⟩ := hInv.1 p hpmem cc hcc
      exact ⟨hccid, by rw [hcols]; exact hccnt1,
        fun col hne => by rw [hcols]; exact hccnt0 col hne⟩
  · intro col idX hmem
    rw [hcols] at hmem
    rw [hlk' idX]
    by_cases hx : tid = idX
    · simp [hx]
    · rw [if_neg hx]
      exact hInv.2 col idX hmem

set_option maxHeartbeats 1600000 in
/-- **C9** (amended).  The exactly-one-column invariant — every known card
ID occurs exactly once among the column lists, in the column named by its
card's `Column` field, and every column entry is a known card — holds on
the fresh board and is preserved by every event whose task creation (if it
is one) is for a not-yet-known task ID.  A duplicate task-created event
breaks it (see the counterexample): the stale ID entry stays in its old
column while a fresh card is appended to Backlog. -/
theorem C9_invariant_preservation :
    NewKanbanModel.Inv
    ∧ ∀ (m : KModel) (e : Event), m.Inv →
        ((e.type = .taskCreated ∨ e.type = .userTaskCreated) →
          m.lookupCard e.taskID = none) →
        (handleTeamEvent m e).Inv := by
  constructor
  · constructor
    · intro p hp
      simp [NewKanbanModel] at hp
    · intro col id hid
      simp [NewKanbanModel] at hid
  · intro m e hInv hfresh
    obtain ⟨ty, tid, actor, data⟩ := e
    cases ty
    case phaseChanged =>
      cases data <;> exact inv_congr rfl rfl hInv
    case pmSelected =>
      cases data <;> exact inv_congr rfl rfl hInv
    case pmDecision =>
      cases data <;> exact inv_congr rfl rfl hInv
    case sessionComplete => exact inv_congr rfl rfl hInv
    case userTaskBlocking => exact inv_congr rfl rfl hInv
    case userTaskCompleted => exact inv_congr rfl rfl hInv
    case taskCreated =>
      have hf : m.lookupCard tid = none := hfresh (Or.inl rfl)
      cases data
      case taskCreatedD d =>
        exact create_preserves_inv m _ tid _ hInv hf rfl rfl rfl rfl
      all_goals exact inv_congr rfl rfl hInv
    case userTaskCreated =>
      have hf : m.lookupCard tid = none := hfresh (Or.inr rfl)
      cases data
      case taskCreatedD d =>
        exact create_preserves_inv m _ tid _ hInv hf rfl rfl rfl rfl
      all_goals exact inv_congr rfl rfl hInv
    case taskStarted =>
      rcases hlk : m.lookupCard tid with _ | card
      · simp only [handleTeamEvent, lookupCard_addDebugLog, hlk]
        exact inv_congr rfl rfl hInv
      · simp only [handleTeamEvent, lookupCard_addDebugLog, hlk]
        exact inv_congr rfl rfl
          (moveCard_preserves_inv m tid card card .inProgress hInv hlk rfl rfl)
    case taskCompleted =>
      rcases hlk : m.lookupCard tid with _ | card
      · simp only [handleTeamEvent, lookupCard_addDebugLog, hlk]
        exact inv_congr rfl rfl hInv
      · simp only [handleTeamEvent, lookupCard_addDebugLog, hlk]
        exact inv_congr rfl rfl
          (moveCard_preserves_inv m tid card { card with done := true } .review
            hInv hlk rfl rfl)
    case taskMovedToReview =>
      rcases hlk : m.lookupCard tid with _ | card
      · simp only [handleTeamEvent, lookupCard_addDebugLog, hlk]
        exact inv_congr rfl rfl hInv
      · simp only [handleTeamEvent, lookupCard_addDebugLog, hlk]
        exact inv_congr rfl rfl
          (moveCard_preserves_inv m tid card card .review hInv hlk rfl rfl)
    case pmApproved =>
      rcases hlk : m.lookupCard tid with _ | card
      · simp only [handleTeamEvent, lookupCard_addDebugLog, hlk]
        exact inv_congr rfl rfl hInv
      · simp only [handleTeamEvent, lookupCard_addDebugLog, hlk]
        exact inv_congr rfl rfl
          (moveCard_preserves_inv m tid card card .done hInv hlk rfl rfl)
    case taskProgress =>
      rcases hlk : m.lookupCard tid with _ | card
      · simp only [handleTeamEvent, lookupCard_addDebugLog, hlk]
        cases data <;> exact inv_congr rfl rfl hInv
      · simp only [handleTeamEvent, lookupCard_addDebugLog, hlk]
        cases data
        case taskProgressD content progress =>
          have hkeep := reinsert_preserves_inv m
            (m.insertCard tid
              { card with streamBuf := card.streamBuf ++ content,
                          fullHistory := card.fullHistory ++ content,
                          progress := progress })
            tid card
            { card with streamBuf := card.streamBuf ++ content,
                        fullHistory := card.fullHistory ++ content,
                        progress := progress }
            hInv hlk rfl rfl rfl rfl
          by_cases hlen : content.length > 50 <;>
            simp only [hlen, if_true, if_false] <;>
            exact inv_congr rfl rfl hkeep
        all_goals exact inv_congr rfl rfl hInv
    case error =>
      cases data
      case errorD err dataTaskID message =>
        rcases hlk : m.lookupCard dataTaskID with _ | card
        · simp only [handleTeamEvent, lookupCard_addDebugLog, hlk]
          exact inv_congr rfl rfl hInv
        · simp only [handleTeamEvent, lookupCard_addDebugLog, hlk]
          exact inv_congr rfl rfl
            (reinsert_preserves_inv m
              (m.insertCard dataTaskID { card with error := some err })
              dataTaskID card { card with error := some err }
              hInv hlk rfl rfl rfl rfl)
      all_goals exact inv_congr rfl rfl hInv

/-- Witness for C9 at a concrete input: the fresh board satisfies the
invariant and keeps it after a first (fresh) task-created event. -/
theorem C9_witness :
    (handleTeamEvent NewKanbanModel evCreateT).Inv :=
  C9_invariant_preservation.2 NewKanbanModel evCreateT
    C9_invariant_preservation.1 (fun _ => rfl)

/-! ## Selector lemmas -/

theorem selectLoop_as_fold (taskLower : String) (members : List String) :
    selectLoop taskLower members
      = ((GetPMStrengths.filter (fun pm => members.contains pm.aiID)).map
          (fun pm => (pm.aiID, candidateScore taskLower pm))).foldl
            selStep ("", -1) := by
  have main : ∀ (l : List PMStrength) (b : String × Int),
      l.foldl (fun best pm =>
        if members.contains pm.aiID then
          let score := candidateScore taskLower pm
          if score > best.2 then (pm.aiID, score) else best
        else best) b
      = ((l.filter (fun pm => members.contains pm.aiID)).map
          (fun pm => (pm.aiID, candidateScore taskLower pm))).foldl selStep b := by
    intro l
    induction l with
    | nil => intro b; rfl
    | cons pm rest ih =>
      intro b
      by_cases h : members.contains pm.aiID
      · simp only [List.foldl_cons, List.filter_cons, h, if_true,
          List.map_cons, ite_true]
        rw [ih]
        rfl
      · simp only [List.foldl_cons, List.filter_cons, h,
          Bool.false_eq_true, if_false, ite_false]
        exact ih b
  exact main GetPMStrengths ("", -1)

theorem foldl_selStep_firstMax (l : List (String × Int)) :
    ∀ b : String × Int, l.foldl selStep b
      = match firstMax l with
        | none => b
        | some q => if q.2 > b.2 then q else b := by
  induction l with
  | nil => intro b; rfl
  | cons p rest ih =>
    intro b
    rw [List.foldl_cons, ih (selStep b p)]
    cases hf : firstMax rest with
    | none =>
      have hfm : firstMax (p :: rest) = some p := by
        unfold firstMax
        rw [hf]
      rw [hfm]
      show selStep b p = if p.2 > b.2 then p else b
      rfl
    | some q =>
      have hfm : firstMax (p :: rest)
          = if q.2 > p.2 then some q else some p := by
        unfold firstMax
        rw [hf]
      rw [hfm]
      by_cases h1 : q.2 > p.2
      · rw [if_pos h1]
        show (if q.2 > (selStep b p).2 then q else selStep b p)
          = if q.2 > b.2 then q else b
        unfold selStep
        by_cases h2 : p.2 > b.2
        · rw [if_pos h2]
          have hqb : q.2 > b.2 := by omega
          rw [if_pos h1, if_pos hqb]
        · rw [if_neg h2]
      · rw [if_neg h1]
        show (if q.2 > (selStep b p).2 then q else selStep b p)
          = if p.2 > b.2 then p else b
        unfold selStep
        by_cases h2 : p.2 > b.2
        · rw [if_pos h2, if_neg h1]
        · rw [if_neg h2]
          have hqb : ¬ q.2 > b.2 := by omega
          rw [if_neg hqb]

theorem firstMax_mem : ∀ {l : List (String × Int)} {q : String × Int},
    firstMax l = some q → q ∈ l := by
  intro l
  induction l with
  | nil => intro q h; simp [firstMax] at h
  | cons p rest ih =>
    intro q h
    cases hf : firstMax rest with
    | none =>
      have hfm : firstMax (p :: rest) = some p := by
        unfold firstMax
        rw [hf]
      rw [hfm] at h
      obtain rfl : p = q := Option.some.inj h
      exact List.mem_cons_self _ _
    | some q' =>
      have hfm : firstMax (p :: rest)
          = if q'.2 > p.2 then some q' else some p := by
        unfold firstMax
        rw [hf]
      rw [hfm] at h
      by_cases hgt : q'.2 > p.2
      · rw [if_pos hgt] at h
        obtain rfl : q' = q := Option.some.inj h
        exact List.mem_cons_of_mem p (ih hf)
      · rw [if_neg hgt] at h
        obtain rfl : p = q := Option.some.inj h
        exact List.mem_cons_self _ _

theorem firstMax_spec : ∀ (l : List (String × Int)), l ≠ [] →
    (∀ p ∈ l, 0 ≤ p.2) →
    ∃ q, firstMax l = some q ∧ q.2 = maxSnd l
      ∧ l.find? (fun p => p.2 == maxSnd l) = some q := by
  intro l
  induction l with
  | nil => intro h; exact absurd rfl h
  | cons p rest ih =>
    intro _ hpos
    cases hrest : rest with
    | nil =>
      subst hrest
      have hp : 0 ≤ p.2 := hpos p (List.mem_cons_self _ _)
      have hmax : maxSnd [p] = p.2 := by
        show max p.2 (-1) = p.2
        omega
      refine ⟨p, rfl, hmax.symm, ?_⟩
      rw [hmax]
      exact List.find?_cons_of_pos _ (by simp)
    | cons r rs =>
      subst hrest
      obtain ⟨q, hq1, hq2, hq3⟩ := ih (by simp)
        (fun x hx => hpos x (List.mem_cons_of_mem p hx))
      by_cases hgt : q.2 > p.2
      · have hfm : firstMax (p :: r :: rs) = some q := by
          unfold firstMax
          rw [hq1]
          show (if q.2 > p.2 then some q else some p) = some q
          rw [if_pos hgt]
        have hmax : maxSnd (p :: r :: rs) = q.2 := by
          show max p.2 (maxSnd (r :: rs)) = q.2
          rw [← hq2]
          omega
        refine ⟨q, hfm, hmax.symm, ?_⟩
        rw [hmax]
        rw [List.find?_cons_of_neg _ (by simp only [beq_iff_eq]; omega)]
        rw [← hq2] at hq3
        exact hq3
      · have hfm : firstMax (p :: r :: rs) = some p := by
          unfold firstMax
          rw [hq1]
          show (if q.2 > p.2 then some q else some p) = some p
          rw [if_neg hgt]
        have hmax : maxSnd (p :: r :: rs) = p.2 := by
          show max p.2 (maxSnd (r :: rs)) = p.2
          rw [← hq2]
          omega
        refine ⟨p, hfm, hmax.symm, ?_⟩
        rw [hmax]
        exact List.find?_cons_of_pos _ (by simp)

theorem firstMax_all_zero (p : String × Int) (rest : List (String × Int))
    (hz : ∀ x ∈ p :: rest, x.2 = 0) : firstMax (p :: rest) = some p := by
  cases hr : rest with
  | nil => rfl
  | cons r rs =>
    subst hr
    obtain ⟨q, hq1, _, _⟩ := firstMax_spec (r :: rs) (by simp)
      (fun x hx => le_of_eq (hz x (List.mem_cons_of_mem p hx)).symm)
    have hq0 : q.2 = 0 := hz q (List.mem_cons_of_mem p (firstMax_mem hq1))
    have hp0 : p.2 = 0 := hz p (List.mem_cons_self _ _)
    unfold firstMax
    rw [hq1]
    show (if q.2 > p.2 then some q else some p) = some p
    rw [if_neg (by omega)]

theorem words_foldl_ge (taskLower : String) (ws : List String) (a : Int) :
    a ≤ ws.foldl (fun x word => if goContains taskLower word then x + 1 else x) a := by
  induction ws generalizing a with
  | nil => exact le_refl a
  | cons w rest ih =>
    rw [List.foldl_cons]
    refine le_trans ?_ (ih _)
    split_ifs <;> omega

theorem scoreStrengths_nonneg (taskLower : String) (strengths : List String) :
    0 ≤ scoreStrengths taskLower strengths := by
  have main : ∀ (l : List String) (b : Int), b ≤ l.foldl
      (fun acc strength =>
        (goFields strength).foldl
          (fun a word => if goContains taskLower word then a + 1 else a)
          (if goContains taskLower strength then acc + 2 else acc)) b := by
    intro l
    induction l with
    | nil => intro b; exact le_refl b
    | cons s rest ih =>
      intro b
      rw [List.foldl_cons]
      refine le_trans ?_ (ih _)
      refine le_trans ?_ (words_foldl_ge taskLower (goFields s) _)
      split_ifs <;> omega
  exact main strengths 0

theorem categoryBonus_nonneg (task : String) (kws : List String)
    (aiID fav : String) : 0 ≤ categoryBonus task kws aiID fav := by
  unfold categoryBonus
  cases kws.find? (fun kw => goContains task kw) with
  | none => exact le_refl 0
  | some _ =>
    show (0 : Int) ≤ if aiID = fav then 3 else 0
    split_ifs <;> omega

theorem candidateScore_nonneg (taskLower : String) (pm : PMStrength) :
    0 ≤ candidateScore taskLower pm := by
  unfold candidateScore getTaskTypeBonus
  have h1 := scoreStrengths_nonneg taskLower pm.strengths
  have h2 := categoryBonus_nonneg taskLower
    ["code", "implement", "build", "develop", "program",
     "function", "api", "debug", "fix"] pm.aiID "gpt"
  have h3 := categoryBonus_nonneg taskLower
    ["write", "document", "explain", "analyze", "review",
     "design", "architect", "plan"] pm.aiID "claude"
  have h4 := categoryBonus_nonneg taskLower
    ["research", "find", "search", "compare",
     "investigate", "summarize"] pm.aiID "gemini"
  have h5 := categoryBonus_nonneg taskLower
    ["quick", "fast", "simple", "prototype",
     "brainstorm", "iterate"] pm.aiID "groq"
  omega

theorem candScores_nonneg (task : String) (members : List String) :
    ∀ p ∈ candScores task members, 0 ≤ p.2 := by
  intro p hp
  obtain ⟨pm, _, rfl⟩ := List.mem_map.mp hp
  exact candidateScore_nonneg (goToLower task) pm

theorem candScores_fst_ne_empty (task : String) (members : List String) :
    ∀ p ∈ candScores task members, p.1 ≠ "" := by
  intro p hp
  obtain ⟨pm, hpm, rfl⟩ := List.mem_map.mp hp
  have hmem : pm ∈ GetPMStrengths := List.mem_of_mem_filter hpm
  have hids : ∀ x ∈ GetPMStrengths, x.aiID ≠ "" := by decide
  exact hids pm hmem

theorem select_of_firstMax (task : String) (members : List String)
    (q : String × Int) (hq : firstMax (candScores task members) = some q)
    (hq0 : 0 ≤ q.2) (hqne : q.1 ≠ "") : Select task members = .ok q.1 := by
  have hfold : selectLoop (goToLower task) members
      = (candScores task members).foldl selStep ("", -1) :=
    selectLoop_as_fold (goToLower task) members
  have hloop : selectLoop (goToLower task) members = q := by
    rw [hfold, foldl_selStep_firstMax, hq]
    show (if q.2 > ("", (-1 : Int)).2 then q else ("", -1)) = q
    have h2 : ("", (-1 : Int)).2 = -1 := rfl
    rw [if_pos (by rw [h2]; omega)]
  simp only [Select]
  rw [hloop, if_neg hqne]

theorem candScores_claude_head (task : String) (members : List String)
    (h : members.contains "claude" = true) :
    ∃ s rest2, candScores task members = ("claude", s) :: rest2 := by
  have hmain : candScores task members
      = ("claude", candidateScore (goToLower task)
          { aiID := "claude", displayName := "Claude",
            strengths := ["nuanced reasoning", "writing", "analysis",
                          "ethics", "explanation", "documentation",
                          "architecture", "design"] })
        :: (GetPMStrengths.tail.filter
              (fun pm => members.contains pm.aiID)).map
            (fun pm => (pm.aiID, candidateScore (goToLower task) pm)) := by
    unfold candScores GetPMStrengths
    rw [List.filter_cons]
    rw [show (members.contains
        ({ aiID := "claude", displayName := "Claude",
           strengths := ["nuanced reasoning", "writing", "analysis", "ethics",
                         "explanation", "documentation", "architecture",
                         "design"] } : PMStrength).aiID) = true from h]
    rw [if_pos rfl, List.map_cons]
    rfl
  exact ⟨_, _, hmain⟩

/-- **C6** (counterexample).  The claim's scoring/tie-breaking rule picks
`groq` for task `"speed translation"` over the roster `[groq, gemini]`
(both score 2 under the claim's formula and groq is first in roster order),
but `Select` returns `gemini`: the code scores single-word keywords as
2 + 1 = 3 and resolves ties in the fixed strengths-table order
claude, gpt, gemini, groq — not in roster order. -/
theorem C6_counterexample :
    specSelect "speed translation" ["groq", "gemini"] = "groq"
    ∧ Select "speed translation" ["groq", "gemini"] = .ok "gemini"
    ∧ ("gemini" : String) ≠ "groq" := by
  refine ⟨by decide, rfl, by decide⟩

/-- **C6** (amended).  With candidates scored as 2 per contained keyword
phrase plus 1 per contained individual word of the phrase (also for
one-word phrases) plus the exclusive task-type bonus of 3, `Select` returns
the first candidate — in the fixed strengths-table order claude, gpt,
gemini, groq restricted to available members — whose score equals the
maximum candidate score. -/
theorem C6_first_table_argmax (task : String) (members : List String)
    (hne : candScores task members ≠ []) :
    ∃ p, (candScores task members).find?
        (fun q => q.2 == maxSnd (candScores task members)) = some p
      ∧ Select task members = .ok p.1 := by
  obtain ⟨q, hq1, _, hq3⟩ :=
    firstMax_spec (candScores task members) hne (candScores_nonneg task members)
  have hqmem := firstMax_mem hq1
  refine ⟨q, hq3, ?_⟩
  exact select_of_firstMax task members q hq1
    (candScores_nonneg task members q hqmem)
    (candScores_fst_ne_empty task members q hqmem)

/-- Witness for C6 at the concrete input of the counterexample: both
candidates score 3 under the code's formula and the first table-order
candidate (`gemini`) wins. -/
theorem C6_witness :
    ∃ p, (candScores "speed translation" ["groq", "gemini"]).find?
        (fun q => q.2 == maxSnd (candScores "speed translation" ["groq", "gemini"]))
        = some p
      ∧ Select "speed translation" ["groq", "gemini"] = .ok p.1 :=
  C6_first_table_argmax "speed translation" ["groq", "gemini"] (by decide)

/-- **C7** (counterexample).  For task `"xyzzy"` and roster
`[groq, gemini]` every candidate scores zero and `claude` is not in the
roster, so the claim requires the first available member `groq`; `Select`
returns `gemini` (the first candidate in the fixed strengths-table
order). -/
theorem C7_counterexample :
    (∀ p ∈ candScores "xyzzy" ["groq", "gemini"], p.2 = 0)
    ∧ (["groq", "gemini"] : List String).contains "claude" = false
    ∧ Select "xyzzy" ["groq", "gemini"] = .ok "gemini"
    ∧ ("gemini" : String) ≠ "groq" := by
  refine ⟨by decide, by decide, rfl, by decide⟩

/-- **C7** (amended).  When no available member appears in the strengths
table, `Select` returns the first available member (the empty string for an
empty roster); `claude` in the roster always makes `claude` a scored
candidate, so that case never reaches the claude-preferring fallback.  When
candidates exist but all score zero, `Select` returns the first candidate
in the fixed strengths-table order — `claude` whenever claude is in the
roster, but not in general the roster's first member. -/
theorem C7_fallback (task : String) (members : List String) :
    (candScores task members = [] →
      Select task members = .ok (members.headD ""))
    ∧ (candScores task members ≠ [] →
        (∀ p ∈ candScores task members, p.2 = 0) →
        (∃ p rest, candScores task members = p :: rest
          ∧ Select task members = .ok p.1)
        ∧ (members.contains "claude" = true →
            Select task members = .ok "claude")) := by
  constructor
  · intro hnil
    have hloop : selectLoop (goToLower task) members = ("", -1) := by
      rw [selectLoop_as_fold (goToLower task) members]
      rw [show ((GetPMStrengths.filter (fun pm => members.contains pm.aiID)).map
            (fun pm => (pm.aiID, candidateScore (goToLower task) pm)))
          = candScores task members from rfl, hnil]
      rfl
    simp only [Select]
    rw [hloop]
    rw [if_pos rfl]
    have hclaude : members.contains "claude" = false := by
      by_contra hc
      obtain ⟨s, rest2, hhead⟩ := candScores_claude_head task members
        (by revert hc; cases members.contains "claude" <;> simp)
      rw [hnil] at hhead
      cases hhead
    rw [hclaude]
    cases members with
    | nil => rfl
    | cons m rest => rfl
  · intro hne hz
    obtain ⟨p, rest, hpr⟩ : ∃ p rest, candScores task members = p :: rest := by
      cases h : candScores task members with
      | nil => exact absurd h hne
      | cons a as => exact ⟨a, as, rfl⟩
    have hfm : firstMax (candScores task members) = some p := by
      rw [hpr]
      exact firstMax_all_zero p rest (by rw [← hpr]; exact hz)
    have hpmem : p ∈ candScores task members := by
      rw [hpr]
      exact List.mem_cons_self _ _
    have hsel : Select task members = .ok p.1 :=
      select_of_firstMax task members p hfm
        (candScores_nonneg task members p hpmem)
        (candScores_fst_ne_empty task members p hpmem)
    refine ⟨⟨p, rest, hpr, hsel⟩, ?_⟩
    intro hclaude
    obtain ⟨s, rest2, hhead⟩ := candScores_claude_head task members hclaude
    have hp : p = ("claude", s) := by
      rw [hpr] at hhead
      exact (List.cons.inj hhead).1
    rw [hsel, hp]

/-- Witness for C7 at concrete inputs: a roster with no table member falls
back to its first member, and an all-zero roster containing claude yields
claude. -/
theorem C7_witness :
    Select "xyzzy" ["tabby"] = .ok "tabby"
    ∧ Select "xyzzy" ["groq", "claude"] = .ok "claude" := by
  constructor
  · exact (C7_fallback "xyzzy" ["tabby"]).1 (by decide)
  · exact ((C7_fallback "xyzzy" ["groq", "claude"]).2 (by decide)
      (by decide)).2 (by decide)

/-! ## Mode-executor lemmas -/

theorem executePairProgramming_ok_iff (o : PairOracle) (members : List String)
    (pm : String) (h : 2 ≤ members.length) :
    ExceptOk (executePairProgramming o members pm)
      ↔ ExceptOk (o.driver 0) ∧ ExceptOk (o.driver 1) ∧ ExceptOk (o.driver 2) := by
  unfold executePairProgramming
  rw [if_neg (by omega)]
  rcases h0 : o.driver 0 with e0 | c0 <;>
    rcases h1 : o.driver 1 with e1 | c1 <;>
    rcases h2 : o.driver 2 with e2 | c2 <;>
    simp [pairIter, h0, h1, h2, ExceptOk]

theorem executeConsultation_ok_iff (o : ConsultOracle) (members : List String)
    (pm : String) :
    ExceptOk (executeConsultation o members pm)
      ↔ ExceptOk o.initial ∧ ExceptOk o.final := by
  unfold executeConsultation
  rcases hi : o.initial with e | c <;>
    rcases hf : o.final with e2 | c2 <;>
    simp [ExceptOk]

theorem executeRoundRobin_ok (o : RROracle) (members : List String) :
    ExceptOk (executeRoundRobin o members) :=
  ⟨_, rfl⟩

theorem executeDivideConquer_ok_iff (o : DCOracle) (members : List String)
    (pm : String) :
    ExceptOk (executeDivideConquer o members pm)
      ↔ ExceptOk o.divide ∧ ExceptOk o.merge := by
  unfold executeDivideConquer
  rcases hd : o.divide with e | c <;>
    rcases hm : o.merge with e2 | c2 <;>
    simp [ExceptOk]

theorem executeFreeForm_ok_iff (o : FFOracle) (members : List String)
    (pm : String) :
    ExceptOk (executeFreeForm o members pm)
      ↔ ExceptOk o.synthesis ∧ ExceptOk o.final := by
  unfold executeFreeForm
  rcases hs : o.synthesis with e | c <;>
    rcases hf : o.final with e2 | c2 <;>
    simp [ExceptOk]

/-- **C5** (counterexample).  A failed model invocation of an individual
member is fatal outside divide-and-conquer's merge: pair programming with a
failing driver call aborts the whole mode with `driver failed: ...` instead
of skipping that member's contribution. -/
theorem C5_counterexample :
    executePairProgramming pairFailDriver ["gpt", "claude"] "gpt"
      = .error "driver failed: boom" := rfl

/-- **C5** (amended).  The exact fatality profile of the five modes:
pair programming succeeds iff all three driver calls succeed (navigator
failures are skipped); consultation succeeds iff the PM's initial and final
calls succeed (consulted-member failures are skipped); round-robin always
succeeds (every member failure is skipped); divide-and-conquer succeeds iff
the PM's divide and merge calls succeed (worker failures are skipped);
free-form succeeds iff the PM's synthesis and final calls succeed
(brainstorm failures are skipped). -/
theorem C5_fatal_calls :
    (∀ (o : PairOracle) (members : List String) (pm : String),
        2 ≤ members.length →
        (ExceptOk (executePairProgramming o members pm)
          ↔ ExceptOk (o.driver 0) ∧ ExceptOk (o.driver 1)
            ∧ ExceptOk (o.driver 2)))
    ∧ (∀ (o : ConsultOracle) (members : List String) (pm : String),
        ExceptOk (executeConsultation o members pm)
          ↔ ExceptOk o.initial ∧ ExceptOk o.final)
    ∧ (∀ (o : RROracle) (members : List String),
        ExceptOk (executeRoundRobin o members))
    ∧ (∀ (o : DCOracle) (members : List String) (pm : String),
        ExceptOk (executeDivideConquer o members pm)
          ↔ ExceptOk o.divide ∧ ExceptOk o.merge)
    ∧ (∀ (o : FFOracle) (members : List String) (pm : String),
        ExceptOk (executeFreeForm o members pm)
          ↔ ExceptOk o.synthesis ∧ ExceptOk o.final) :=
  ⟨executePairProgramming_ok_iff, executeConsultation_ok_iff,
   executeRoundRobin_ok, executeDivideConquer_ok_iff, executeFreeForm_ok_iff⟩

/-- Witness for C5 at a concrete input: with every call succeeding, pair
programming over a two-member roster succeeds. -/
theorem C5_witness :
    ExceptOk (executePairProgramming pairAllOk ["gpt", "claude"] "gpt") :=
  (C5_fatal_calls.1 pairAllOk ["gpt", "claude"] "gpt" (by decide)).mpr
    ⟨⟨"code", rfl⟩, ⟨"code", rfl⟩, ⟨"code", rfl⟩⟩

/-! ## Run-trace lemmas -/

theorem select_ok (task : String) (members : List String) :
    ExceptOk (Select task members) := by
  cases hsel : Select task members with
  | ok a => exact ⟨a, rfl⟩
  | error e =>
    exfalso
    simp only [Select] at hsel
    split at hsel
    · split at hsel
      · cases hsel
      · split at hsel <;> cases hsel
    · cases hsel

theorem runnerSelectPM_ok (opts : RunOptions) :
    ExceptOk (runnerSelectPM opts) := by
  unfold runnerSelectPM
  split
  · exact ⟨_, rfl⟩
  · exact select_ok opts.task opts.members

theorem phaseAssignments_append (l1 l2 : List TraceItem) :
    phaseAssignments (l1 ++ l2) = phaseAssignments l1 ++ phaseAssignments l2 :=
  List.filterMap_append l1 l2 _

theorem phaseAssignments_tc (pm : String) (steps : List PlanStepS) :
    phaseAssignments (steps.map (tcEvent pm)) = [] := by
  induction steps with
  | nil => rfl
  | cons st r ih =>
    rw [List.map_cons]
    show phaseAssignments (r.map (tcEvent pm)) = []
    exact ih

theorem discipline_tc (pm : String) (steps : List PlanStepS) (s : GoPhase)
    (rest : List TraceItem) :
    discipline s (steps.map (tcEvent pm) ++ rest) = discipline s rest := by
  induction steps with
  | nil => rfl
  | cons st r ih =>
    rw [List.map_cons, List.cons_append]
    show discipline s (r.map (tcEvent pm) ++ rest) = discipline s rest
    exact ih

theorem all_not_pmfail_tc (pm : String) (steps : List PlanStepS) :
    (steps.map (tcEvent pm)).all (fun it => !isPMSelectionFailure it) = true := by
  rw [List.all_eq_true]
  intro it hit
  obtain ⟨step, _, rfl⟩ := List.mem_map.mp hit
  rfl

theorem discipline_tc_nil (pm : String) (steps : List PlanStepS) (s : GoPhase) :
    discipline s (steps.map (tcEvent pm)) = true := by
  rw [← List.append_nil (List.map (tcEvent pm) steps), discipline_tc]
  rfl

/-- **C1** (amended).  In every run: the successive values of
`session.Phase` (Analysis at creation, then the assignments along the
trace) form a prefix of Analysis, Planning, Execution, Review, Delivery,
Complete — strictly forward, no cycle, no skipping — and the trace obeys
the announcement discipline: each transition into Planning … Delivery
emits a phase-changed event carrying `(old, new) = (s, s+1)` immediately
before the assignment, work runs only in its announced phase, the entry
into Analysis is announced as `(-1, Analysis)`, and the final transition to
Complete is followed by a session-complete event with no phase-changed
announcement of its own. -/
theorem C1_phase_discipline (opts : RunOptions) (o : RunOracle) :
    ((phaseAnalysis :: phaseAssignments (run opts o).1).isPrefixOf
      [phaseAnalysis, phasePlanning, phaseExecution, phaseReview,
       phaseDelivery, phaseComplete]) = true
    ∧ discipline (-1) (run opts o).1 = true := by
  unfold run
  rcases hsel : runnerSelectPM opts with e | pm
  · exact ⟨rfl, rfl⟩
  · rcases hplan : o.plan with e | v
    · exact ⟨rfl, rfl⟩
    obtain ⟨summary, parsedMode, steps⟩ := v
    dsimp only
    rw [if_neg (show ¬(opts.checkpointLevel ≠ checkpointNone ∧
        requestApprovalRun = false) by simp [requestApprovalRun])]
    rcases hmk : (if opts.outputDir ≠ "" then o.mkdir else Except.ok ())
        with e | u
    · dsimp only
      constructor
      · simp only [phaseAssignments_append, phaseAssignments_tc]
        rfl
      · simp only [List.append_assoc]
        show discipline phasePlanning (steps.map (tcEvent pm)) = true
        exact discipline_tc_nil pm steps phasePlanning
    · rcases hexec : o.exec with e | arts
      · dsimp only
        constructor
        · simp only [phaseAssignments_append, phaseAssignments_tc]
          rfl
        · simp only [List.append_assoc]
          show discipline phasePlanning (steps.map (tcEvent pm) ++
            ([.emitE (pcEvent phasePlanning phaseExecution),
              .setPhase phaseExecution, .work .executeW] ++
             [.emitE (errEvent e "Execution failed")])) = true
          rw [discipline_tc]
          rfl
      · rcases hrev : o.review with e | rc
        · dsimp only
          constructor
          · simp only [phaseAssignments_append, phaseAssignments_tc]
            rfl
          · simp only [List.append_assoc]
            show discipline phasePlanning (steps.map (tcEvent pm) ++
              ([.emitE (pcEvent phasePlanning phaseExecution),
                .setPhase phaseExecution, .work .executeW] ++
               [.emitE (pcEvent phaseExecution phaseReview),
                .setPhase phaseReview, .work .reviewW])) = true
            rw [discipline_tc]
            rfl
        · dsimp only
          constructor
          · simp only [phaseAssignments_append, phaseAssignments_tc]
            rfl
          · simp only [List.append_assoc]
            show discipline phasePlanning (steps.map (tcEvent pm) ++
              ([.emitE (pcEvent phasePlanning phaseExecution),
                .setPhase phaseExecution, .work .executeW] ++
               ([.emitE (pcEvent phaseExecution phaseReview),
                 .setPhase phaseReview, .work .reviewW] ++
                ([.emitE (pcEvent phaseReview phaseDelivery),
                  .setPhase phaseDelivery, .work .deliverW] ++
                 [.setPhase phaseComplete,
                  .emitE (NewEvent .sessionComplete "system" .noneD)])))) = true
            rw [discipline_tc]
            rfl

/-- **C10.** `PMSelector.Select` returns a nil error for every input — for
the empty roster it returns `.ok ""` — and consequently `Run` never emits
the fatal `"PM selection failed"` error event: that branch is
unreachable. -/
theorem C10_select_never_fails :
    (∀ (task : String) (members : List String), ExceptOk (Select task members))
    ∧ (∀ task : String, Select task [] = .ok "")
    ∧ ∀ (opts : RunOptions) (o : RunOracle),
        ((run opts o).1.all (fun it => !isPMSelectionFailure it)) = true := by
  refine ⟨select_ok, fun task => rfl, ?_⟩
  intro opts o
  obtain ⟨pm0, hpm0⟩ := runnerSelectPM_ok opts
  unfold run
  rcases hsel : runnerSelectPM opts with e | pm
  · rw [hpm0] at hsel
    cases hsel
  · rcases hplan : o.plan with e | v
    · rfl
    obtain ⟨summary, parsedMode, steps⟩ := v
    dsimp only
    rw [if_neg (show ¬(opts.checkpointLevel ≠ checkpointNone ∧
        requestApprovalRun = false) by simp [requestApprovalRun])]
    rcases hmk : (if opts.outputDir ≠ "" then o.mkdir else Except.ok ())
        with e | u
    · dsimp only
      simp only [List.all_append, all_not_pmfail_tc]
      rfl
    · rcases hexec : o.exec with e | arts
      · dsimp only
        simp only [List.all_append, all_not_pmfail_tc]
        rfl
      · rcases hrev : o.review with e | rc
        · dsimp only
          simp only [List.all_append, all_not_pmfail_tc]
          rfl
        · dsimp only
          simp only [List.all_append, all_not_pmfail_tc]
          rfl

/-- **C1** (counterexample).  In the all-success run, `session.Phase` is
assigned `PhaseComplete`, yet no phase-changed event announcing `Complete`
is ever emitted (the code emits `EventSessionComplete` instead), so not
every phase transition emits a phase-changed event carrying the old and new
phase. -/
theorem C1_counterexample :
    ((run c1opts c1oracle).1.any isSetPhaseComplete) = true
    ∧ ((run c1opts c1oracle).1.any (announcesPhase phaseComplete)) = false := by
  refine ⟨by decide, by decide⟩

end KanbanSociety
